import Mathlib

/-!
# Scam Intelligence Dashboard: filter, selection and statistics

A shallow embedding of `dashboard/src/App.jsx`: the data hook `useDashboardData`
(its `load` step) and the derived values of `App` (`filtered`, `selected`,
`totalScams`, `totalMessages`), together with the host functions they call
(`JSON.stringify`, `String.prototype.trim`, `toLowerCase`, `includes`, the
operator `+`).

Conventions of the embedding.

* A JavaScript string is a list of characters (`Str`).  Strings holding lone
  surrogate code units are not representable; on the remaining strings a
  search over code units and a search over characters agree.
* A number is an IEEE 754 double (`Number`), a finite one held as an integer
  multiple of `2^(-1074)`; sums are rounded as the host rounds them.
* Lower-casing follows the Unicode Default Case Conversion, with the tables of
  Unicode 14.0.
* A JavaScript value read from a record is `Option Json`, `none` standing for
  `undefined`.
-/

namespace Dashboard

/-- A JavaScript string, as the list of its characters. -/
abbrev Str := List Char

/-! ## Numbers -/

/-- A value of the Number type, an IEEE 754 double. A finite value is held as
the integer `units`, its value being `units × 2^(-1074)`: every finite double
is such a multiple. Negative zero is not told apart from zero: serialization,
`ToBoolean`, strict equality and the sum of `totalMessages`, which starts from
`0` and adds `value || 0`, give the same result for both. -/
inductive Number where
  | finite (units : Int)
  | infinite (negative : Bool)
  | nan
  deriving DecidableEq

/-- The number of units in `1`. -/
def unitsPerOne : Nat := 2 ^ 1074

/-- The double of a natural number that is one (every natural number up to
`2^53` is). -/
def Number.ofNat (n : Nat) : Number := Number.finite (n * unitsPerOne)

/-- The quotient `num / den` rounded to the nearest integer, a tie going to the
even one. -/
def roundHalfEven (num den : Nat) : Nat :=
  let q := num / den
  let r := num % den
  if 2 * r < den then q
  else if den < 2 * r then q + 1
  else if q % 2 = 0 then q
  else q + 1

/-- The number of binary digits of `n`, by halving at most `fuel` times. -/
def bitLengthFrom : Nat → Nat → Nat
  | 0, _ => 0
  | fuel + 1, n => if n = 0 then 0 else bitLengthFrom fuel (n / 2) + 1

/-- The number of binary digits of `n` (`0` for `0`). -/
def bitLength (n : Nat) : Nat := bitLengthFrom n n

/-- The magnitude `num / den`, in units, rounded to the nearest double (53
significant bits, ties to even); `none` when the result is infinite. -/
def roundUnits (num den : Nat) : Option Nat :=
  let shift := bitLength (num / den) - 53
  let r := roundHalfEven num (den * 2 ^ shift) * 2 ^ shift
  if r < 2 ^ 2098 then some r else none

/-- The double nearest to an exact number of units. -/
def Number.round (z : Int) : Number :=
  match roundUnits z.natAbs 1 with
  | some r => Number.finite (if z < 0 then -(r : Int) else (r : Int))
  | none => Number.infinite (decide (z < 0))

/-- The operation `Number::add`. -/
def Number.add : Number → Number → Number
  | Number.nan, _ => Number.nan
  | _, Number.nan => Number.nan
  | Number.infinite a, Number.infinite b => if a = b then Number.infinite a else Number.nan
  | Number.infinite a, Number.finite _ => Number.infinite a
  | Number.finite _, Number.infinite b => Number.infinite b
  | Number.finite x, Number.finite y => Number.round (x + y)

/-- The operation `Number::equal`, used by strict equality. -/
def Number.equal : Number → Number → Bool
  | Number.finite x, Number.finite y => decide (x = y)
  | Number.infinite a, Number.infinite b => a == b
  | _, _ => false

/-- The magnitude of `units` units is below `10^n`. -/
def belowPowerOfTen (units : Nat) (n : Int) : Bool :=
  if 0 ≤ n then decide (units < 10 ^ n.toNat * unitsPerOne)
  else decide (units * 10 ^ (-n).toNat < unitsPerOne)

/-- The least `n`, from `start` on, with the magnitude below `10^n`. -/
def decimalExponentFrom (units : Nat) : Nat → Int → Int
  | 0, n => n
  | fuel + 1, n =>
    if belowPowerOfTen units n then n else decimalExponentFrom units fuel (n + 1)

/-- The integer `n` with `10^(n-1) ≤ v < 10^n` for the magnitude `v` of a finite
double other than zero; `n` lies between `-323` and `309`. -/
def decimalExponent (units : Nat) : Int := decimalExponentFrom units 633 (-323)

/-- The decimal `s × 10^p` in units, as a fraction. -/
def decimalUnits (s : Nat) (p : Int) : Nat × Nat :=
  if 0 ≤ p then (s * 10 ^ p.toNat * unitsPerOne, 1)
  else (s * unitsPerOne, 10 ^ (-p).toNat)

/-- The decimal `s × 10^p` rounds to the double of `units` units. -/
def roundsTo (units s : Nat) (p : Int) : Bool :=
  match roundUnits (decimalUnits s p).1 (decimalUnits s p).2 with
  | some r => decide (r = units)
  | none => false

/-- The distance between the decimal `s × 10^p` and the magnitude, in units
times the denominator of the decimal. -/
def decimalError (units s : Nat) (p : Int) : Nat :=
  let d := decimalUnits s p
  if units * d.2 ≤ d.1 then d.1 - units * d.2 else units * d.2 - d.1

/-- The `k`-digit decimal `s × 10^(n-k)` that rounds to the double: of the two
decimals around the magnitude, the one that rounds to it, the closer one when
both do, the even one on a tie; `none` when neither does. -/
def candidate (units : Nat) (n0 : Int) (k : Nat) : Option (Nat × Int) :=
  let p := n0 - k
  let lo := if 0 ≤ p then units / (10 ^ p.toNat * unitsPerOne)
    else units * 10 ^ (-p).toNat / unitsPerOne
  let hi := lo + 1
  let pick : Option Nat :=
    if roundsTo units lo p then
      if roundsTo units hi p then
        if decimalError units lo p < decimalError units hi p then some lo
        else if decimalError units hi p < decimalError units lo p then some hi
        else if lo % 2 = 0 then some lo
        else some hi
      else some lo
    else if roundsTo units hi p then some hi
    else none
  match pick with
  | none => none
  | some s => if s = 10 ^ k then some (10 ^ (k - 1), n0 + 1) else some (s, n0)

/-- The search for the least number of digits `k`, from `k` on. -/
def shortestFrom (units : Nat) (n0 : Int) : Nat → Nat → Nat × Int × Nat
  | 0, k => (0, n0, k)
  | fuel + 1, k =>
    match candidate units n0 k with
    | some (s, n) => (s, n, k)
    | none => shortestFrom units n0 fuel (k + 1)

/-- Step 5 of `Number::toString`: integers `s`, `n`, `k` with `k` as small as
possible such that `s` has `k` digits and `s × 10^(n-k)` rounds to the double.
Seventeen digits are enough for every double. -/
def shortest (units : Nat) : Nat × Int × Nat :=
  shortestFrom units (decimalExponent units) 17 1

/-- The decimal digits of a natural number. -/
def digits (n : Nat) : Str := Nat.toDigits 10 n

/-- The exponent part of the scientific form: `e`, the sign and the digits of
`n - 1`. -/
def exponentPart (n : Int) : Str :=
  'e' :: (if 0 ≤ n - 1 then '+' else '-') :: digits (n - 1).natAbs

/-- Steps 6 to 10 of `Number::toString`: the text of a magnitude from its
digits `s`, their number `k` and the exponent `n`. -/
def formatDecimal (s : Nat) (n : Int) (k : Nat) : Str :=
  if (k : Int) ≤ n ∧ n ≤ 21 then digits s ++ List.replicate (n - k).toNat '0'
  else if 0 < n ∧ n ≤ 21 then
    (digits s).take n.toNat ++ '.' :: (digits s).drop n.toNat
  else if -6 < n ∧ n ≤ 0 then
    '0' :: '.' :: (List.replicate (-n).toNat '0' ++ digits s)
  else if k = 1 then digits s ++ exponentPart n
  else (digits s).take 1 ++ '.' :: ((digits s).drop 1 ++ exponentPart n)

/-- The operation `Number::toString` with radix 10. -/
def numberToString : Number → Str
  | Number.nan => "NaN".toList
  | Number.infinite false => "Infinity".toList
  | Number.infinite true => "-Infinity".toList
  | Number.finite units =>
    if units = 0 then ['0']
    else
      let t := shortest units.natAbs
      if units < 0 then '-' :: formatDecimal t.1 t.2.1 t.2.2
      else formatDecimal t.1 t.2.1 t.2.2

/-- A value produced by `response.json()`. The members of an object are kept
in the enumeration order of its keys. -/
inductive Json where
  | null
  | bool (b : Bool)
  | num (x : Number)
  | str (s : Str)
  | arr (items : List Json)
  | obj (members : List (Str × Json))

/-- A JavaScript value: `none` is `undefined`. -/
abbrev JsValue := Option Json

/-- A session record: the members of one JSON object of the collection. -/
abbrev Record := List (Str × Json)

/-! ## Serialization -/

/-- The quotation mark U+0022. -/
def dquote : Char := Char.ofNat 34

/-- The reverse solidus U+005C. -/
def backslash : Char := Char.ofNat 92

/-- One lower-case hexadecimal digit. -/
def hexDigit (n : Nat) : Char := Nat.digitChar (n % 16)

/-- The `UnicodeEscape` operation of ECMA-262: a reverse solidus, `u`, and four
lower-case hexadecimal digits. -/
def unicodeEscape (c : Char) : Str :=
  [backslash, 'u', hexDigit (c.toNat / 4096), hexDigit (c.toNat / 256),
    hexDigit (c.toNat / 16), hexDigit c.toNat]

/-- The text `QuoteJSONString` emits for one character: the two-character
escapes of table 75 of ECMA-262, a `UnicodeEscape` for the other control
characters, the character itself otherwise. -/
def quoteChar (c : Char) : Str :=
  if c.toNat = 8 then [backslash, 'b']
  else if c.toNat = 9 then [backslash, 't']
  else if c.toNat = 10 then [backslash, 'n']
  else if c.toNat = 12 then [backslash, 'f']
  else if c.toNat = 13 then [backslash, 'r']
  else if c.toNat = 34 then [backslash, dquote]
  else if c.toNat = 92 then [backslash, backslash]
  else if c.toNat < 32 then unicodeEscape c
  else [c]

/-- The body of a quoted string: every character replaced by `quoteChar`. -/
def quoteBody : Str → Str
  | [] => []
  | c :: cs => quoteChar c ++ quoteBody cs

/-- The `QuoteJSONString` operation of ECMA-262. -/
def quoteJSONString (s : Str) : Str :=
  dquote :: (quoteBody s ++ [dquote])

mutual
/-- The function `JSON.stringify` with one argument, on a parsed JSON value; a
number that is not finite is written `null`. -/
def stringify : Json → Str
  | .null => ['n', 'u', 'l', 'l']
  | .bool true => ['t', 'r', 'u', 'e']
  | .bool false => ['f', 'a', 'l', 's', 'e']
  | .num (Number.finite units) => numberToString (Number.finite units)
  | .num _ => ['n', 'u', 'l', 'l']
  | .str s => quoteJSONString s
  | .arr [] => ['[', ']']
  | .arr (x :: xs) => '[' :: (stringify x ++ stringifyItems xs)
  | .obj [] => [Char.ofNat 123, Char.ofNat 125]
  | .obj ((k, v) :: ms) =>
    Char.ofNat 123 :: (quoteJSONString k ++ ':' :: (stringify v ++ stringifyMembers ms))
/-- The elements after the first of an array, each preceded by a comma, and the
closing bracket. -/
def stringifyItems : List Json → Str
  | [] => [']']
  | x :: xs => ',' :: (stringify x ++ stringifyItems xs)
/-- The members after the first of an object, each preceded by a comma, and the
closing brace. -/
def stringifyMembers : List (Str × Json) → Str
  | [] => [Char.ofNat 125]
  | (k, v) :: ms => ',' :: (quoteJSONString k ++ ':' :: (stringify v ++ stringifyMembers ms))
end

/-! ## White space and lower case -/

/-- The `WhiteSpace` and `LineTerminator` code points of ECMA-262, the ones
`String.prototype.trim` removes. -/
def isWhiteSpace (c : Char) : Bool :=
  c.toNat = 9 || c.toNat = 10 || c.toNat = 11 || c.toNat = 12 || c.toNat = 13 ||
  c.toNat = 32 || c.toNat = 160 || c.toNat = 5760 ||
  (8192 ≤ c.toNat && c.toNat ≤ 8202) ||
  c.toNat = 8232 || c.toNat = 8233 || c.toNat = 8239 || c.toNat = 8287 ||
  c.toNat = 12288 || c.toNat = 65279

/-- The method `String.prototype.trim`: white space removed at both ends. -/
def trim (s : Str) : Str :=
  ((s.dropWhile isWhiteSpace).reverse.dropWhile isWhiteSpace).reverse

/-- The simple lower-case mappings of `UnicodeData.txt` (Unicode 14.0), as runs
`(first, last, step, target)`: the code points `first + i * step` up to `last`
map to `target + i * step`. The runs are in increasing order. -/
def lowerRanges : List (Nat × Nat × Nat × Nat) :=
  [(65, 90, 1, 97), (192, 214, 1, 224), (216, 222, 1, 248), (256, 302, 2, 257),
   (306, 310, 2, 307), (313, 327, 2, 314), (330, 374, 2, 331), (376, 376, 1, 255),
   (377, 381, 2, 378), (385, 385, 1, 595), (386, 388, 2, 387), (390, 390, 1, 596),
   (391, 391, 1, 392), (393, 394, 1, 598), (395, 395, 1, 396), (398, 398, 1, 477),
   (399, 399, 1, 601), (400, 400, 1, 603), (401, 401, 1, 402), (403, 403, 1, 608),
   (404, 404, 1, 611), (406, 406, 1, 617), (407, 407, 1, 616), (408, 408, 1, 409),
   (412, 412, 1, 623), (413, 413, 1, 626), (415, 415, 1, 629), (416, 420, 2, 417),
   (422, 422, 1, 640), (423, 423, 1, 424), (425, 425, 1, 643), (428, 428, 1, 429),
   (430, 430, 1, 648), (431, 431, 1, 432), (433, 434, 1, 650), (435, 437, 2, 436),
   (439, 439, 1, 658), (440, 440, 1, 441), (444, 444, 1, 445), (452, 452, 1, 454),
   (453, 453, 1, 454), (455, 455, 1, 457), (456, 456, 1, 457), (458, 458, 1, 460),
   (459, 475, 2, 460), (478, 494, 2, 479), (497, 497, 1, 499), (498, 500, 2, 499),
   (502, 502, 1, 405), (503, 503, 1, 447), (504, 542, 2, 505), (544, 544, 1, 414),
   (546, 562, 2, 547), (570, 570, 1, 11365), (571, 571, 1, 572), (573, 573, 1, 410),
   (574, 574, 1, 11366), (577, 577, 1, 578), (579, 579, 1, 384), (580, 580, 1, 649),
   (581, 581, 1, 652), (582, 590, 2, 583), (880, 882, 2, 881), (886, 886, 1, 887),
   (895, 895, 1, 1011), (902, 902, 1, 940), (904, 906, 1, 941), (908, 908, 1, 972),
   (910, 911, 1, 973), (913, 929, 1, 945), (931, 939, 1, 963), (975, 975, 1, 983),
   (984, 1006, 2, 985), (1012, 1012, 1, 952), (1015, 1015, 1, 1016), (1017, 1017, 1, 1010),
   (1018, 1018, 1, 1019), (1021, 1023, 1, 891), (1024, 1039, 1, 1104), (1040, 1071, 1, 1072),
   (1120, 1152, 2, 1121), (1162, 1214, 2, 1163), (1216, 1216, 1, 1231), (1217, 1229, 2, 1218),
   (1232, 1326, 2, 1233), (1329, 1366, 1, 1377), (4256, 4293, 1, 11520), (4295, 4295, 1, 11559),
   (4301, 4301, 1, 11565), (5024, 5103, 1, 43888), (5104, 5109, 1, 5112), (7312, 7354, 1, 4304),
   (7357, 7359, 1, 4349), (7680, 7828, 2, 7681), (7838, 7838, 1, 223), (7840, 7934, 2, 7841),
   (7944, 7951, 1, 7936), (7960, 7965, 1, 7952), (7976, 7983, 1, 7968), (7992, 7999, 1, 7984),
   (8008, 8013, 1, 8000), (8025, 8031, 2, 8017), (8040, 8047, 1, 8032), (8072, 8079, 1, 8064),
   (8088, 8095, 1, 8080), (8104, 8111, 1, 8096), (8120, 8121, 1, 8112), (8122, 8123, 1, 8048),
   (8124, 8124, 1, 8115), (8136, 8139, 1, 8050), (8140, 8140, 1, 8131), (8152, 8153, 1, 8144),
   (8154, 8155, 1, 8054), (8168, 8169, 1, 8160), (8170, 8171, 1, 8058), (8172, 8172, 1, 8165),
   (8184, 8185, 1, 8056), (8186, 8187, 1, 8060), (8188, 8188, 1, 8179), (8486, 8486, 1, 969),
   (8490, 8490, 1, 107), (8491, 8491, 1, 229), (8498, 8498, 1, 8526), (8544, 8559, 1, 8560),
   (8579, 8579, 1, 8580), (9398, 9423, 1, 9424), (11264, 11311, 1, 11312), (11360, 11360, 1, 11361),
   (11362, 11362, 1, 619), (11363, 11363, 1, 7549), (11364, 11364, 1, 637), (11367, 11371, 2, 11368),
   (11373, 11373, 1, 593), (11374, 11374, 1, 625), (11375, 11375, 1, 592), (11376, 11376, 1, 594),
   (11378, 11378, 1, 11379), (11381, 11381, 1, 11382), (11390, 11391, 1, 575), (11392, 11490, 2, 11393),
   (11499, 11501, 2, 11500), (11506, 11506, 1, 11507), (42560, 42604, 2, 42561), (42624, 42650, 2, 42625),
   (42786, 42798, 2, 42787), (42802, 42862, 2, 42803), (42873, 42875, 2, 42874), (42877, 42877, 1, 7545),
   (42878, 42886, 2, 42879), (42891, 42891, 1, 42892), (42893, 42893, 1, 613), (42896, 42898, 2, 42897),
   (42902, 42920, 2, 42903), (42922, 42922, 1, 614), (42923, 42923, 1, 604), (42924, 42924, 1, 609),
   (42925, 42925, 1, 620), (42926, 42926, 1, 618), (42928, 42928, 1, 670), (42929, 42929, 1, 647),
   (42930, 42930, 1, 669), (42931, 42931, 1, 43859), (42932, 42946, 2, 42933), (42948, 42948, 1, 42900),
   (42949, 42949, 1, 642), (42950, 42950, 1, 7566), (42951, 42953, 2, 42952), (42960, 42960, 1, 42961),
   (42966, 42968, 2, 42967), (42997, 42997, 1, 42998), (65313, 65338, 1, 65345), (66560, 66599, 1, 66600),
   (66736, 66771, 1, 66776), (66928, 66938, 1, 66967), (66940, 66954, 1, 66979), (66956, 66962, 1, 66995),
   (66964, 66965, 1, 67003), (68736, 68786, 1, 68800), (71840, 71871, 1, 71872), (93760, 93791, 1, 93792),
   (125184, 125217, 1, 125218)]

/-- The code points with the property `Case_Ignorable` (Unicode 14.0), as
increasing runs `(first, last)`. -/
def caseIgnorableRanges : List (Nat × Nat) :=
  [(39, 39), (46, 46), (58, 58), (94, 94), (96, 96), (168, 168),
   (173, 173), (175, 175), (180, 180), (183, 184), (688, 879), (884, 885),
   (890, 890), (900, 901), (903, 903), (1155, 1161), (1369, 1369), (1375, 1375),
   (1425, 1469), (1471, 1471), (1473, 1474), (1476, 1477), (1479, 1479), (1524, 1524),
   (1536, 1541), (1552, 1562), (1564, 1564), (1600, 1600), (1611, 1631), (1648, 1648),
   (1750, 1757), (1759, 1768), (1770, 1773), (1807, 1807), (1809, 1809), (1840, 1866),
   (1958, 1968), (2027, 2037), (2042, 2042), (2045, 2045), (2070, 2093), (2137, 2139),
   (2184, 2184), (2192, 2193), (2200, 2207), (2249, 2306), (2362, 2362), (2364, 2364),
   (2369, 2376), (2381, 2381), (2385, 2391), (2402, 2403), (2417, 2417), (2433, 2433),
   (2492, 2492), (2497, 2500), (2509, 2509), (2530, 2531), (2558, 2558), (2561, 2562),
   (2620, 2620), (2625, 2626), (2631, 2632), (2635, 2637), (2641, 2641), (2672, 2673),
   (2677, 2677), (2689, 2690), (2748, 2748), (2753, 2757), (2759, 2760), (2765, 2765),
   (2786, 2787), (2810, 2815), (2817, 2817), (2876, 2876), (2879, 2879), (2881, 2884),
   (2893, 2893), (2901, 2902), (2914, 2915), (2946, 2946), (3008, 3008), (3021, 3021),
   (3072, 3072), (3076, 3076), (3132, 3132), (3134, 3136), (3142, 3144), (3146, 3149),
   (3157, 3158), (3170, 3171), (3201, 3201), (3260, 3260), (3263, 3263), (3270, 3270),
   (3276, 3277), (3298, 3299), (3328, 3329), (3387, 3388), (3393, 3396), (3405, 3405),
   (3426, 3427), (3457, 3457), (3530, 3530), (3538, 3540), (3542, 3542), (3633, 3633),
   (3636, 3642), (3654, 3662), (3761, 3761), (3764, 3772), (3782, 3782), (3784, 3789),
   (3864, 3865), (3893, 3893), (3895, 3895), (3897, 3897), (3953, 3966), (3968, 3972),
   (3974, 3975), (3981, 3991), (3993, 4028), (4038, 4038), (4141, 4144), (4146, 4151),
   (4153, 4154), (4157, 4158), (4184, 4185), (4190, 4192), (4209, 4212), (4226, 4226),
   (4229, 4230), (4237, 4237), (4253, 4253), (4348, 4348), (4957, 4959), (5906, 5908),
   (5938, 5939), (5970, 5971), (6002, 6003), (6068, 6069), (6071, 6077), (6086, 6086),
   (6089, 6099), (6103, 6103), (6109, 6109), (6155, 6159), (6211, 6211), (6277, 6278),
   (6313, 6313), (6432, 6434), (6439, 6440), (6450, 6450), (6457, 6459), (6679, 6680),
   (6683, 6683), (6742, 6742), (6744, 6750), (6752, 6752), (6754, 6754), (6757, 6764),
   (6771, 6780), (6783, 6783), (6823, 6823), (6832, 6862), (6912, 6915), (6964, 6964),
   (6966, 6970), (6972, 6972), (6978, 6978), (7019, 7027), (7040, 7041), (7074, 7077),
   (7080, 7081), (7083, 7085), (7142, 7142), (7144, 7145), (7149, 7149), (7151, 7153),
   (7212, 7219), (7222, 7223), (7288, 7293), (7376, 7378), (7380, 7392), (7394, 7400),
   (7405, 7405), (7412, 7412), (7416, 7417), (7468, 7530), (7544, 7544), (7579, 7679),
   (8125, 8125), (8127, 8129), (8141, 8143), (8157, 8159), (8173, 8175), (8189, 8190),
   (8203, 8207), (8216, 8217), (8228, 8228), (8231, 8231), (8234, 8238), (8288, 8292),
   (8294, 8303), (8305, 8305), (8319, 8319), (8336, 8348), (8400, 8432), (11388, 11389),
   (11503, 11505), (11631, 11631), (11647, 11647), (11744, 11775), (11823, 11823), (12293, 12293),
   (12330, 12333), (12337, 12341), (12347, 12347), (12441, 12446), (12540, 12542), (40981, 40981),
   (42232, 42237), (42508, 42508), (42607, 42610), (42612, 42621), (42623, 42623), (42652, 42655),
   (42736, 42737), (42752, 42785), (42864, 42864), (42888, 42890), (42994, 42996), (43000, 43001),
   (43010, 43010), (43014, 43014), (43019, 43019), (43045, 43046), (43052, 43052), (43204, 43205),
   (43232, 43249), (43263, 43263), (43302, 43309), (43335, 43345), (43392, 43394), (43443, 43443),
   (43446, 43449), (43452, 43453), (43471, 43471), (43493, 43494), (43561, 43566), (43569, 43570),
   (43573, 43574), (43587, 43587), (43596, 43596), (43632, 43632), (43644, 43644), (43696, 43696),
   (43698, 43700), (43703, 43704), (43710, 43711), (43713, 43713), (43741, 43741), (43756, 43757),
   (43763, 43764), (43766, 43766), (43867, 43871), (43881, 43883), (44005, 44005), (44008, 44008),
   (44013, 44013), (64286, 64286), (64434, 64450), (65024, 65039), (65043, 65043), (65056, 65071),
   (65106, 65106), (65109, 65109), (65279, 65279), (65287, 65287), (65294, 65294), (65306, 65306),
   (65342, 65342), (65344, 65344), (65392, 65392), (65438, 65439), (65507, 65507), (65529, 65531),
   (66045, 66045), (66272, 66272), (66422, 66426), (67456, 67461), (67463, 67504), (67506, 67514),
   (68097, 68099), (68101, 68102), (68108, 68111), (68152, 68154), (68159, 68159), (68325, 68326),
   (68900, 68903), (69291, 69292), (69446, 69456), (69506, 69509), (69633, 69633), (69688, 69702),
   (69744, 69744), (69747, 69748), (69759, 69761), (69811, 69814), (69817, 69818), (69821, 69821),
   (69826, 69826), (69837, 69837), (69888, 69890), (69927, 69931), (69933, 69940), (70003, 70003),
   (70016, 70017), (70070, 70078), (70089, 70092), (70095, 70095), (70191, 70193), (70196, 70196),
   (70198, 70199), (70206, 70206), (70367, 70367), (70371, 70378), (70400, 70401), (70459, 70460),
   (70464, 70464), (70502, 70508), (70512, 70516), (70712, 70719), (70722, 70724), (70726, 70726),
   (70750, 70750), (70835, 70840), (70842, 70842), (70847, 70848), (70850, 70851), (71090, 71093),
   (71100, 71101), (71103, 71104), (71132, 71133), (71219, 71226), (71229, 71229), (71231, 71232),
   (71339, 71339), (71341, 71341), (71344, 71349), (71351, 71351), (71453, 71455), (71458, 71461),
   (71463, 71467), (71727, 71735), (71737, 71738), (71995, 71996), (71998, 71998), (72003, 72003),
   (72148, 72151), (72154, 72155), (72160, 72160), (72193, 72202), (72243, 72248), (72251, 72254),
   (72263, 72263), (72273, 72278), (72281, 72283), (72330, 72342), (72344, 72345), (72752, 72758),
   (72760, 72765), (72767, 72767), (72850, 72871), (72874, 72880), (72882, 72883), (72885, 72886),
   (73009, 73014), (73018, 73018), (73020, 73021), (73023, 73029), (73031, 73031), (73104, 73105),
   (73109, 73109), (73111, 73111), (73459, 73460), (78896, 78904), (92912, 92916), (92976, 92982),
   (92992, 92995), (94031, 94031), (94095, 94111), (94176, 94177), (94179, 94180), (110576, 110579),
   (110581, 110587), (110589, 110590), (113821, 113822), (113824, 113827), (118528, 118573), (118576, 118598),
   (119143, 119145), (119155, 119170), (119173, 119179), (119210, 119213), (119362, 119364), (121344, 121398),
   (121403, 121452), (121461, 121461), (121476, 121476), (121499, 121503), (121505, 121519), (122880, 122886),
   (122888, 122904), (122907, 122913), (122915, 122916), (122918, 122922), (123184, 123197), (123566, 123566),
   (123628, 123631), (125136, 125142), (125252, 125259), (127995, 127999), (917505, 917505), (917536, 917631),
   (917760, 917999)]

/-- The code points with the property `Cased` that are not `Case_Ignorable`
(Unicode 14.0), as increasing runs `(first, last)`. -/
def casedRanges : List (Nat × Nat) :=
  [(65, 90), (97, 122), (170, 170), (181, 181), (186, 186), (192, 214),
   (216, 246), (248, 442), (444, 447), (452, 659), (661, 687), (880, 883),
   (886, 887), (891, 893), (895, 895), (902, 902), (904, 906), (908, 908),
   (910, 929), (931, 1013), (1015, 1153), (1162, 1327), (1329, 1366), (1376, 1416),
   (4256, 4293), (4295, 4295), (4301, 4301), (4304, 4346), (4349, 4351), (5024, 5109),
   (5112, 5117), (7296, 7304), (7312, 7354), (7357, 7359), (7424, 7467), (7531, 7543),
   (7545, 7578), (7680, 7957), (7960, 7965), (7968, 8005), (8008, 8013), (8016, 8023),
   (8025, 8025), (8027, 8027), (8029, 8029), (8031, 8061), (8064, 8116), (8118, 8124),
   (8126, 8126), (8130, 8132), (8134, 8140), (8144, 8147), (8150, 8155), (8160, 8172),
   (8178, 8180), (8182, 8188), (8450, 8450), (8455, 8455), (8458, 8467), (8469, 8469),
   (8473, 8477), (8484, 8484), (8486, 8486), (8488, 8488), (8490, 8493), (8495, 8500),
   (8505, 8505), (8508, 8511), (8517, 8521), (8526, 8526), (8544, 8575), (8579, 8580),
   (9398, 9449), (11264, 11387), (11390, 11492), (11499, 11502), (11506, 11507), (11520, 11557),
   (11559, 11559), (11565, 11565), (42560, 42605), (42624, 42651), (42786, 42863), (42865, 42887),
   (42891, 42894), (42896, 42954), (42960, 42961), (42963, 42963), (42965, 42969), (42997, 42998),
   (43002, 43002), (43824, 43866), (43872, 43880), (43888, 43967), (64256, 64262), (64275, 64279),
   (65313, 65338), (65345, 65370), (66560, 66639), (66736, 66771), (66776, 66811), (66928, 66938),
   (66940, 66954), (66956, 66962), (66964, 66965), (66967, 66977), (66979, 66993), (66995, 67001),
   (67003, 67004), (68736, 68786), (68800, 68850), (71840, 71903), (93760, 93823), (119808, 119892),
   (119894, 119964), (119966, 119967), (119970, 119970), (119973, 119974), (119977, 119980), (119982, 119993),
   (119995, 119995), (119997, 120003), (120005, 120069), (120071, 120074), (120077, 120084), (120086, 120092),
   (120094, 120121), (120123, 120126), (120128, 120132), (120134, 120134), (120138, 120144), (120146, 120485),
   (120488, 120512), (120514, 120538), (120540, 120570), (120572, 120596), (120598, 120628), (120630, 120654),
   (120656, 120686), (120688, 120712), (120714, 120744), (120746, 120770), (120772, 120779), (122624, 122633),
   (122635, 122654), (125184, 125251), (127280, 127305), (127312, 127337), (127344, 127369)]

/-- The code point is in one of the increasing runs. -/
def inRanges (n : Nat) : List (Nat × Nat) → Bool
  | [] => false
  | (lo, hi) :: rest =>
    if n < lo then false else if n ≤ hi then true else inRanges n rest

/-- The simple lower-case mapping of a code point, read from increasing runs. -/
def lowerCode (n : Nat) : List (Nat × Nat × Nat × Nat) → Nat
  | [] => n
  | (lo, hi, step, target) :: rest =>
    if n < lo then n
    else if n ≤ hi then (if (n - lo) % step = 0 then target + (n - lo) else n)
    else lowerCode n rest

/-- The property `Case_Ignorable`. -/
def isCaseIgnorable (c : Char) : Bool := inRanges c.toNat caseIgnorableRanges

/-- The property `Cased`, for a character that is not case-ignorable. -/
def isCased (c : Char) : Bool := inRanges c.toNat casedRanges

/-- The characters from here on are case-ignorable ones followed by a cased
letter. The same function reads the text before a position, given nearest
character first. -/
def casedNext : Str → Bool
  | [] => false
  | c :: cs => if isCaseIgnorable c then casedNext cs else isCased c

/-- The lower-case mapping of one character whose mapping does not depend on
its context: the two characters of `SpecialCasing.txt` for U+0130, the simple
mapping otherwise. -/
def lowerChar (c : Char) : Str :=
  if c.toNat = 304 then [Char.ofNat 105, Char.ofNat 775]
  else [Char.ofNat (lowerCode c.toNat lowerRanges)]

/-- Lower-casing of the text `s` that follows the characters `before` (nearest
first). The capital sigma U+03A3 becomes the final sigma U+03C2 in the
context `Final_Sigma` (after a cased letter and case-ignorable characters, and
not before case-ignorable characters and a cased letter), the small sigma
U+03C3 otherwise. -/
def lowerFrom (before : Str) : Str → Str
  | [] => []
  | c :: cs =>
    (if c.toNat = 931 then
      (if casedNext before && !casedNext cs then [Char.ofNat 962] else [Char.ofNat 963])
    else lowerChar c) ++ lowerFrom (c :: before) cs

/-- The method `String.prototype.toLowerCase`: the lower-case mapping of the
Unicode Default Case Conversion, which takes no locale. -/
def toLowerCase (s : Str) : Str := lowerFrom [] s

/-! ## Search, truth and equality -/

/-- The method `String.prototype.includes`: the search string occurs in `text`
at some index. -/
def includes : Str → Str → Bool
  | [], needle => needle.isEmpty
  | c :: cs, needle => needle.isPrefixOf (c :: cs) || includes cs needle

/-- Conversion of a value to a boolean (`ToBoolean`). -/
def truthy : JsValue → Bool
  | none => false
  | some .null => false
  | some (.bool b) => b
  | some (.num (Number.finite units)) => decide (units ≠ 0)
  | some (.num (Number.infinite _)) => true
  | some (.num Number.nan) => false
  | some (.str s) => !s.isEmpty
  | some (.arr _) => true
  | some (.obj _) => true

/-- Strict equality `===` of two values. Primitive values are equal when they
are the same value. Arrays and objects are compared by reference in the host,
which this value model does not track: the embedding answers `false` for them
(the data model makes every `sessionId` a string). -/
def strictEq : JsValue → JsValue → Bool
  | none, none => true
  | some .null, some .null => true
  | some (.bool a), some (.bool b) => a == b
  | some (.num a), some (.num b) => Number.equal a b
  | some (.str a), some (.str b) => a == b
  | _, _ => false

/-- Property read `item.key` on an object made by `response.json()`. -/
def getProp (item : Record) (key : Str) : JsValue :=
  (item.find? fun m => m.1 == key).map fun m => m.2

/-! ## The operator `+` -/

/-- A primitive value other than `undefined`. -/
inductive Primitive where
  | null
  | bool (b : Bool)
  | number (x : Number)
  | string (s : Str)
  deriving DecidableEq

/-- The property name `toString`. -/
def toStringKey : Str := "toString".toList

/-- The text of one element in a join, from the element and its `ToString`:
empty for `null`. -/
def elementText (x : Json) (text : Option Str) : Option Str :=
  match x with
  | .null => some []
  | _ => text

mutual
/-- The operation `ToString` on a parsed JSON value. An array is joined with
commas (`Array.prototype.join`); an object gives `[object Object]`, unless it
has a member named `toString`, which hides the inherited method and is not
callable: the host then raises a `TypeError`, here `none`. -/
def toStringOf : Json → Option Str
  | .null => some ['n', 'u', 'l', 'l']
  | .bool true => some ['t', 'r', 'u', 'e']
  | .bool false => some ['f', 'a', 'l', 's', 'e']
  | .num x => some (numberToString x)
  | .str s => some s
  | .arr [] => some []
  | .arr (x :: xs) =>
    match elementText x (toStringOf x), joinRest xs with
    | some a, some b => some (a ++ b)
    | _, _ => none
  | .obj members =>
    if (members.find? fun m => m.1 == toStringKey).isSome then none
    else some "[object Object]".toList
/-- The elements after the first in a join, each preceded by a comma. -/
def joinRest : List Json → Option Str
  | [] => some []
  | x :: xs =>
    match elementText x (toStringOf x), joinRest xs with
    | some a, some b => some (',' :: (a ++ b))
    | _, _ => none
end

/-- The operation `ToPrimitive` on a parsed JSON value: an array or object
becomes its string. -/
def toPrimitive : Json → Option Primitive
  | .null => some Primitive.null
  | .bool b => some (Primitive.bool b)
  | .num x => some (Primitive.number x)
  | .str s => some (Primitive.string s)
  | .arr items => (toStringOf (.arr items)).map Primitive.string
  | .obj members => (toStringOf (.obj members)).map Primitive.string

/-- The operation `ToString` on a primitive value. -/
def Primitive.toStr : Primitive → Str
  | Primitive.null => ['n', 'u', 'l', 'l']
  | Primitive.bool true => ['t', 'r', 'u', 'e']
  | Primitive.bool false => ['f', 'a', 'l', 's', 'e']
  | Primitive.number x => numberToString x
  | Primitive.string s => s

/-- A value of the sum of the reducer of `totalMessages`: a number, or a
string once a string was added. -/
inductive Total where
  | number (x : Number)
  | string (s : Str)
  deriving DecidableEq

/-- The expression `sum + operand`: both sides are made primitive; when
either is a string the result is the concatenation of their strings;
otherwise the operand is made a number (`null` and `false` are `0`, `true` is
`1`) and added. `none` when making the operand primitive raises. -/
def plus (sum : Total) (operand : Json) : Option Total :=
  match toPrimitive operand with
  | none => none
  | some right =>
    match sum, right with
    | Total.string a, r => some (Total.string (a ++ r.toStr))
    | Total.number x, Primitive.string b => some (Total.string (numberToString x ++ b))
    | Total.number x, Primitive.number y => some (Total.number (Number.add x y))
    | Total.number x, Primitive.null => some (Total.number (Number.add x (Number.finite 0)))
    | Total.number x, Primitive.bool true => some (Total.number (Number.add x (Number.ofNat 1)))
    | Total.number x, Primitive.bool false => some (Total.number (Number.add x (Number.finite 0)))

/-! ## Property names -/

/-- The property name `sessionId`. -/
def sessionIdKey : Str := "sessionId".toList

/-- The property name `scamDetected`. -/
def scamDetectedKey : Str := "scamDetected".toList

/-- The property name `totalMessagesExchanged`. -/
def totalMessagesExchangedKey : Str := "totalMessagesExchanged".toList

/-- The property name `records`. -/
def recordsKey : Str := "records".toList

/-! ## The application component `App` -/

/-- The value `filtered` of `App`: the whole collection for a blank query,
otherwise the records whose lower-cased serialization includes the lower-cased
query. -/
def filtered (records : List Record) (query : Str) : List Record :=
  if (trim query).isEmpty then records
  else
    let needle := toLowerCase query
    records.filter fun record =>
      let text := toLowerCase (stringify (Json.obj record))
      includes text needle

/-- The value `selected` of `App`:
`filtered.find((item) => item.sessionId === selectedId) || filtered[0]`.
A record is an object, hence truthy, so the right operand is taken exactly
when `find` returns `undefined`; `none` is `undefined`. -/
def selected (filtered : List Record) (selectedId : JsValue) : Option Record :=
  match filtered.find? fun item => strictEq (getProp item sessionIdKey) selectedId with
  | some item => some item
  | none => filtered.head?

/-- The value `totalScams` of `App`. -/
def totalScams (records : List Record) : Nat :=
  (records.filter fun item => truthy (getProp item scamDetectedKey)).length

/-- The expression `value || 0`. -/
def orZero (value : JsValue) : Json :=
  match value with
  | some v => if truthy (some v) then v else Json.num (Number.finite 0)
  | none => Json.num (Number.finite 0)

/-- One step of the reducer of `totalMessages`, `sum + operand`; `none` is a
`TypeError` raised by this step or an earlier one. -/
def addOperand : Option Total → Json → Option Total
  | some sum, operand => plus sum operand
  | none, _ => none

/-- The value `totalMessages` of `App`, a left fold from `0`: a number, or a
string once an operand was one; `none` when the fold raises. -/
def totalMessages (records : List Record) : Option Total :=
  records.foldl
    (fun sum item => addOperand sum (orZero (getProp item totalMessagesExchangedKey)))
    (some (Total.number (Number.finite 0)))

/-- The state `App` owns: the text of the search box and the stored selection
(`useState("")` and `useState(null)`). -/
structure AppState where
  query : Str
  selectedId : JsValue

/-- The state of `App` at mount. -/
def AppState.initial : AppState := ⟨[], some Json.null⟩

/-- The change handler of the search box. -/
def setQuery (st : AppState) (text : Str) : AppState := { st with query := text }

/-- The setter `setSelectedId`. -/
def setSelectedId (st : AppState) (id : JsValue) : AppState := { st with selectedId := id }

/-- The click handler of a session item: `setSelectedId(item.sessionId)`. -/
def onClick (st : AppState) (item : Record) : AppState :=
  setSelectedId st (getProp item sessionIdKey)

/-- The two events that change the state of `App`. -/
inductive Action where
  | setQuery (text : Str)
  | select (id : JsValue)

/-- One event applied to the state. -/
def step (st : AppState) : Action → AppState
  | .setQuery text => setQuery st text
  | .select id => setSelectedId st id

/-- The detail pane: the session detail of the selection, or the empty pane
with its text. -/
inductive Pane where
  | detail (item : Record)
  | empty (text : Str)

/-- The conditional `selected ? ... : ...` of the render. -/
def detailPane : Option Record → Pane
  | some item => .detail item
  | none => .empty "No sessions to display.".toList

/-- What one render of `App` derives from the records and its state. -/
structure View where
  totalSessions : Nat
  totalScams : Nat
  totalMessages : Option Total
  filtered : List Record
  selected : Option Record
  pane : Pane

/-- One render of `App`. -/
def render (records : List Record) (st : AppState) : View :=
  { totalSessions := records.length
    totalScams := totalScams records
    totalMessages := totalMessages records
    filtered := filtered records st.query
    selected := selected (filtered records st.query) st.selectedId
    pane := detailPane (selected (filtered records st.query) st.selectedId) }

/-! ## The data hook `useDashboardData` -/

/-- The state of the hook. `lastUpdated` holds the time of the last successful
load, `none` standing for `null`. -/
structure HookState where
  records : List Json
  status : Str
  error : Str
  lastUpdated : Option Nat

/-- The state of the hook at mount. -/
def HookState.initial : HookState := ⟨[], "idle".toList, [], none⟩

/-- A thrown value, reduced to its `message` property (`none`: no message). -/
structure Thrown where
  message : Option Str

/-- What the network answers to one `load`: the request rejects, or a response
arrives with its `ok` flag, its status and the outcome of `response.json()`. -/
inductive FetchOutcome where
  | rejected (err : Thrown)
  | response (ok : Bool) (status : Nat) (body : Except Thrown Json)

/-- The expression `payload.records`: raises a `TypeError` on `null`, reads
the member of an object, is `undefined` on the other values. The message of
the `TypeError` is worded by the engine and is the parameter
`nullReadMessage`. -/
def payloadRecords (nullReadMessage : Str) : Json → Except Thrown JsValue
  | .null => .error ⟨some nullReadMessage⟩
  | .obj members => .ok (getProp members recordsKey)
  | _ => .ok none

/-- The expression `Array.isArray(payload.records) ? payload.records : []`. -/
def itemsOf : JsValue → List Json
  | some (.arr items) => items
  | _ => []

/-- The body of the `try` block of `load`: the items to store, or the value
thrown. -/
def tryBlock (nullReadMessage : Str) : FetchOutcome → Except Thrown (List Json)
  | .rejected err => .error err
  | .response ok status body =>
    if !ok then .error ⟨some ("API error ".toList ++ Nat.toDigits 10 status)⟩
    else
      match body with
      | .error err => .error err
      | .ok payload =>
        match payloadRecords nullReadMessage payload with
        | .error err => .error err
        | .ok value => .ok (itemsOf value)

/-- The expression `err.message || "Failed to load data"`. -/
def messageOf (err : Thrown) : Str :=
  match err.message with
  | some m => if m.isEmpty then "Failed to load data".toList else m
  | none => "Failed to load data".toList

/-- The function `load` of the hook, as a step on its state: `outcome` is what
the network answers, `now` the value of `new Date()` on success and
`nullReadMessage` the wording of the engine for a property read on `null`. -/
def load (nullReadMessage : Str) (st : HookState) (outcome : FetchOutcome) (now : Nat) :
    HookState :=
  let st1 : HookState := { st with status := "loading".toList, error := [] }
  match tryBlock nullReadMessage outcome with
  | .ok items =>
    { st1 with records := items, lastUpdated := some now, status := "ready".toList }
  | .error err =>
    { st1 with status := "error".toList, error := messageOf err }

/-! ## The values the detail pane shows -/

/-- The property name `extractedIntelligence`. -/
def extractedIntelligenceKey : Str := "extractedIntelligence".toList

/-- The property name `rawMessages`. -/
def rawMessagesKey : Str := "rawMessages".toList

/-- The property name `text`. -/
def textKey : Str := "text".toList

/-- The strings among the elements of an array. -/
def stringItems : List Json → List Str
  | [] => []
  | Json.str s :: rest => s :: stringItems rest
  | _ :: rest => stringItems rest

/-- The expression `selected.extractedIntelligence?.key || []` of the detail
pane (`key` one of `upiIds`, `bankAccounts`, `phoneNumbers`, `phishingLinks`,
`suspiciousKeywords`), as the strings it lists. -/
def intelligenceItems (r : Record) (key : Str) : List Str :=
  match getProp r extractedIntelligenceKey with
  | some (Json.obj members) =>
    match getProp members key with
    | some (Json.arr items) => stringItems items
    | _ => []
  | _ => []

/-- The texts of an array of messages. -/
def textsOf : List Json → List Str
  | [] => []
  | Json.obj message :: rest =>
    match getProp message textKey with
    | some (Json.str t) => t :: textsOf rest
    | _ => textsOf rest
  | _ :: rest => textsOf rest

/-- The texts `message.text` of `selected.rawMessages || []`. -/
def messageTexts (r : Record) : List Str :=
  match getProp r rawMessagesKey with
  | some (Json.arr messages) => textsOf messages
  | _ => []

/-- The character is one `QuoteJSONString` writes as an escape sequence. -/
def needsEscape (c : Char) : Bool :=
  c.toNat < 32 || c.toNat = 34 || c.toNat = 92

mutual
/-- The string values held anywhere in a JSON value. -/
def strings : Json → List Str
  | .null => []
  | .bool _ => []
  | .num _ => []
  | .str s => [s]
  | .arr [] => []
  | .arr (x :: xs) => strings x ++ stringsOfItems xs
  | .obj [] => []
  | .obj ((_, v) :: ms) => strings v ++ stringsOfMembers ms
/-- The string values held in the elements of an array. -/
def stringsOfItems : List Json → List Str
  | [] => []
  | x :: xs => strings x ++ stringsOfItems xs
/-- The string values held in the values of the members of an object. -/
def stringsOfMembers : List (Str × Json) → List Str
  | [] => []
  | (_, v) :: ms => strings v ++ stringsOfMembers ms
end

/-- The outcomes on which the `try` block of `load` throws: the request
rejects, the response is not ok, `response.json()` rejects, or the body is
`null`, whose property read raises. -/
def FetchOutcome.throws : FetchOutcome → Bool
  | .rejected _ => true
  | .response false _ _ => true
  | .response true _ (.error _) => true
  | .response true _ (.ok .null) => true
  | .response true _ (.ok _) => false

/-- The value is an object in the sense of `typeof`: an object or an array,
`null` excluded. -/
def isObject : Json → Bool
  | .arr _ => true
  | .obj _ => true
  | _ => false

/-! ## The data model of the specification -/

/-- The typing the data model gives the two aggregated fields of a record:
`scamDetected` is a boolean and `totalMessagesExchanged` a non-negative
integer, each of them possibly absent or `null`. -/
def WellTyped (r : Record) : Prop :=
  (getProp r scamDetectedKey = none ∨ getProp r scamDetectedKey = some Json.null ∨
      ∃ b, getProp r scamDetectedKey = some (Json.bool b)) ∧
  (getProp r totalMessagesExchangedKey = none ∨
      getProp r totalMessagesExchangedKey = some Json.null ∨
      ∃ n : Nat, getProp r totalMessagesExchangedKey = some (Json.num (Number.ofNat n)))

/-- The field `scamDetected` of the record is `true`. -/
def scamFlag (r : Record) : Bool :=
  match getProp r scamDetectedKey with
  | some (Json.bool true) => true
  | _ => false

/-- The field `totalMessagesExchanged` of the record when it is a non-negative
integer, and `0` for a missing value (or one that is no such number). -/
def messageCount (r : Record) : Nat :=
  match getProp r totalMessagesExchangedKey with
  | some (Json.num (Number.finite units)) => units.toNat / unitsPerOne
  | _ => 0

/-! ## Sample data -/

/-- The first record of the scenario of the specification. -/
def recordA : Record :=
  [(sessionIdKey, Json.str "a".toList), (scamDetectedKey, Json.bool true),
    (totalMessagesExchangedKey, Json.num (Number.ofNat 5))]

/-- The second record of the scenario of the specification. -/
def recordB : Record :=
  [(sessionIdKey, Json.str "b".toList), (scamDetectedKey, Json.bool false),
    (totalMessagesExchangedKey, Json.num (Number.ofNat 3))]

/-- The first record of the statistics example, with its two counted fields
only. -/
def countedA : Record :=
  [(scamDetectedKey, Json.bool true), (totalMessagesExchangedKey, Json.num (Number.ofNat 5))]

/-- The second record of the statistics example. -/
def countedB : Record :=
  [(scamDetectedKey, Json.bool false), (totalMessagesExchangedKey, Json.num (Number.ofNat 3))]

/-- A record whose flag is a string and whose count is `2^53`. -/
def countedBig : Record :=
  [(scamDetectedKey, Json.str "yes".toList),
    (totalMessagesExchangedKey, Json.num (Number.ofNat 9007199254740992))]

/-- A record whose count is `1`. -/
def countedOne : Record :=
  [(scamDetectedKey, Json.bool false), (totalMessagesExchangedKey, Json.num (Number.ofNat 1))]

/-- A record with one message whose text holds quotation marks. -/
def recordQuoted : Record :=
  [(sessionIdKey, Json.str "s1".toList), (scamDetectedKey, Json.bool true),
    (totalMessagesExchangedKey, Json.num (Number.ofNat 1)),
    (extractedIntelligenceKey, Json.obj [("phoneNumbers".toList,
      Json.arr [Json.str "+919876543210".toList])]),
    (rawMessagesKey, Json.arr [Json.obj [("sender".toList, Json.str "scammer".toList),
      ("timestamp".toList, Json.num (Number.ofNat 1700000000)),
      (textKey, Json.str "Send the \"OTP\" now".toList)]])]

/-- A record whose serialization holds `abc` and not `abc` followed by a
space. -/
def recordAbc : Record := [(sessionIdKey, Json.str "abc".toList)]

/-- A record with capital letters outside ASCII, a count of `10^21`, a
timestamp of `1700000000.5` and a text with quotation marks and a line
feed. -/
def recordMixed : Record :=
  [(sessionIdKey, Json.str "S-É1".toList),
    (totalMessagesExchangedKey, Json.num (Number.ofNat (10 ^ 21))),
    (rawMessagesKey, Json.arr [Json.obj [
      ("timestamp".toList, Json.num (Number.finite (3400000001 * 2 ^ 1073))),
      (textKey, Json.str "CAFÉ \"ΟΔΟΣ\"\n".toList)]])]

/-- The wording of one engine for a property read on `null`, as a sample. -/
def sampleNullReadMessage : Str :=
  "Cannot read properties of null (reading 'records')".toList

/-- A state of the hook after a successful load of one record. -/
def loadedState : HookState := ⟨[Json.obj recordA], "ready".toList, [], some 1⟩

/-! ## Lemmas on numbers -/

theorem bitLengthFrom_spec (fuel n : Nat) (h : n < 2 ^ fuel) :
    n < 2 ^ bitLengthFrom fuel n ∧ (n ≠ 0 → 2 ^ (bitLengthFrom fuel n - 1) ≤ n) := by
  induction fuel generalizing n with
  | zero =>
    have h0 : n = 0 := by simpa using h
    subst h0
    simp [bitLengthFrom]
  | succ f ih =>
    by_cases hn : n = 0
    · subst hn
      simp [bitLengthFrom]
    · have hhalf : n / 2 < 2 ^ f := by
        rw [pow_succ] at h
        omega
      obtain ⟨h1, h2⟩ := ih (n / 2) hhalf
      simp only [bitLengthFrom, hn, if_false]
      refine ⟨?_, fun _ => ?_⟩
      · rw [pow_succ]
        omega
      · simp only [Nat.add_sub_cancel]
        by_cases hz : n / 2 = 0
        · have hb : bitLengthFrom f (n / 2) = 0 := by
            rw [hz]
            cases f <;> simp [bitLengthFrom]
          rw [hb]
          simp only [pow_zero]
          omega
        · have h3 := h2 hz
          have hb : bitLengthFrom f (n / 2) ≠ 0 := by
            intro e
            rw [e] at h1
            simp only [pow_zero] at h1
            omega
          obtain ⟨b, hb1⟩ := Nat.exists_eq_succ_of_ne_zero hb
          rw [hb1] at h3 ⊢
          simp only [Nat.succ_sub_one] at h3
          rw [pow_succ]
          omega

theorem bitLength_spec (n : Nat) :
    n < 2 ^ bitLength n ∧ (n ≠ 0 → 2 ^ (bitLength n - 1) ≤ n) :=
  bitLengthFrom_spec n n (Nat.lt_two_pow n)

theorem unitsPerOne_pos : 0 < unitsPerOne :=
  Nat.two_pow_pos 1074

theorem roundHalfEven_of_dvd (num den : Nat) (hden : 0 < den) (h : den ∣ num) :
    roundHalfEven num den = num / den := by
  have hr : num % den = 0 := Nat.mod_eq_zero_of_dvd h
  simp [roundHalfEven, hr, hden]

theorem roundUnits_exact (t : Nat) (ht : t ≤ 2 ^ 53) :
    roundUnits (t * unitsPerOne) 1 = some (t * unitsPerOne) := by
  have hU : unitsPerOne = 2 ^ 1074 := rfl
  have hle : t * unitsPerOne ≤ 2 ^ 1127 := by
    calc t * unitsPerOne ≤ 2 ^ 53 * 2 ^ 1074 := by
          rw [hU]
          exact Nat.mul_le_mul_right _ ht
      _ = 2 ^ 1127 := by rw [← pow_add]
  have hdvd : 2 ^ (bitLength (t * unitsPerOne) - 53) ∣ t * unitsPerOne := by
    by_cases hq : t * unitsPerOne = 0
    · rw [hq]
      exact dvd_zero _
    · obtain ⟨_, hlow⟩ := bitLength_spec (t * unitsPerOne)
      have h2 := le_trans (hlow hq) hle
      have h3 : bitLength (t * unitsPerOne) - 1 ≤ 1127 :=
        (Nat.pow_le_pow_iff_right (by omega)).1 h2
      by_cases hs : bitLength (t * unitsPerOne) - 53 ≤ 1074
      · rw [hU]
        exact Dvd.dvd.mul_left (pow_dvd_pow 2 hs) t
      · have hbl : bitLength (t * unitsPerOne) - 1 = 1127 := by omega
        have hge : 2 ^ 1127 ≤ t * unitsPerOne := by
          have := hlow hq
          rwa [hbl] at this
        have heq : t * unitsPerOne = 2 ^ 1127 := le_antisymm hle hge
        have hsh : bitLength (t * unitsPerOne) - 53 = 1075 := by omega
        rw [hsh, heq]
        exact Nat.pow_dvd_pow 2 (by omega)
  have hpos : 0 < 2 ^ (bitLength (t * unitsPerOne) - 53) := Nat.two_pow_pos _
  have hlt : t * unitsPerOne < 2 ^ 2098 :=
    lt_of_le_of_lt hle (Nat.pow_lt_pow_right (by omega) (by omega))
  unfold roundUnits
  simp only [Nat.div_one, one_mul]
  rw [roundHalfEven_of_dvd _ _ hpos hdvd, Nat.div_mul_cancel hdvd]
  simp [hlt]

theorem ofNat_zero : Number.ofNat 0 = Number.finite 0 := by
  simp [Number.ofNat]

theorem add_ofNat (a b : Nat) (h : a + b ≤ 2 ^ 53) :
    Number.add (Number.ofNat a) (Number.ofNat b) = Number.ofNat (a + b) := by
  have hz : ((a : Int) * (unitsPerOne : Int) + (b : Int) * (unitsPerOne : Int))
      = (((a + b) * unitsPerOne : Nat) : Int) := by
    push_cast
    ring
  have hnn : ¬ ((((a + b) * unitsPerOne : Nat) : Int) < 0) := by
    exact not_lt.2 (Int.ofNat_nonneg _)
  show Number.round ((a : Int) * (unitsPerOne : Int) + (b : Int) * (unitsPerOne : Int)) = _
  rw [hz]
  unfold Number.round
  rw [Int.natAbs_ofNat, roundUnits_exact (a + b) h]
  simp only [hnn, if_false]
  simp [Number.ofNat]

theorem messageCount_ofNat (r : Record) (n : Nat)
    (h : getProp r totalMessagesExchangedKey = some (Json.num (Number.ofNat n))) :
    messageCount r = n := by
  have hU : 0 < unitsPerOne := unitsPerOne_pos
  unfold messageCount
  rw [h]
  show ((n : Int) * (unitsPerOne : Int)).toNat / unitsPerOne = n
  have : ((n : Int) * (unitsPerOne : Int)) = ((n * unitsPerOne : Nat) : Int) := by push_cast; rfl
  rw [this, Int.toNat_ofNat, Nat.mul_div_cancel _ hU]

/-! ## Lemmas on lower-casing -/

theorem whiteSpace_code (n : Nat)
    (h : n = 9 ∨ n = 10 ∨ n = 11 ∨ n = 12 ∨ n = 13 ∨ n = 32 ∨ n = 160 ∨ n = 5760
      ∨ (8192 ≤ n ∧ n ≤ 8202) ∨ n = 8232 ∨ n = 8233 ∨ n = 8239 ∨ n = 8287
      ∨ n = 12288 ∨ n = 65279) :
    n ≠ 931 ∧ n ≠ 304 ∧ lowerCode n lowerRanges = n ∧ inRanges n casedRanges = false := by
  rcases h with h | h | h | h | h | h | h | h | h | h | h | h | h | h | h
  iterate 8
    · subst h
      decide!
  · obtain ⟨h1, h2⟩ := h
    interval_cases n <;> decide!
  iterate 6
    · subst h
      decide!

theorem whiteSpace_facts (c : Char) (h : isWhiteSpace c = true) :
    c.toNat ≠ 931 ∧ lowerChar c = [c] ∧ isCased c = false := by
  have hc : c.toNat = 9 ∨ c.toNat = 10 ∨ c.toNat = 11 ∨ c.toNat = 12 ∨ c.toNat = 13
      ∨ c.toNat = 32 ∨ c.toNat = 160 ∨ c.toNat = 5760
      ∨ (8192 ≤ c.toNat ∧ c.toNat ≤ 8202) ∨ c.toNat = 8232 ∨ c.toNat = 8233
      ∨ c.toNat = 8239 ∨ c.toNat = 8287 ∨ c.toNat = 12288 ∨ c.toNat = 65279 := by
    simp only [isWhiteSpace, Bool.or_eq_true, Bool.and_eq_true, decide_eq_true_eq] at h
    tauto
  obtain ⟨h1, h2, h3, h4⟩ := whiteSpace_code c.toNat hc
  refine ⟨h1, ?_, h4⟩
  unfold lowerChar
  rw [if_neg h2, h3, Char.ofNat_toNat]

theorem casedNext_whiteSpace (s : Str) (h : ∀ c ∈ s, isWhiteSpace c = true) :
    casedNext s = false := by
  induction s with
  | nil => rfl
  | cons c cs ih =>
    have hc := (whiteSpace_facts c (h c (List.mem_cons_self c cs))).2.2
    have hcs := ih fun x hx => h x (List.mem_cons_of_mem c hx)
    unfold casedNext
    split <;> assumption

theorem casedNext_cons (c : Char) (cs : Str) :
    casedNext (c :: cs) = if isCaseIgnorable c then casedNext cs else isCased c := rfl

theorem lowerFrom_cons (b : Str) (c : Char) (cs : Str) :
    lowerFrom b (c :: cs)
      = (if c.toNat = 931 then
          (if casedNext b && !casedNext cs then [Char.ofNat 962] else [Char.ofNat 963])
        else lowerChar c) ++ lowerFrom (c :: b) cs := rfl

theorem casedNext_append (a t : Str) (ht : casedNext t = false) :
    casedNext (a ++ t) = casedNext a := by
  induction a with
  | nil => simpa [casedNext] using ht
  | cons c cs ih => rw [List.cons_append, casedNext_cons, casedNext_cons, ih]

/-- Lower-casing of a text between two contexts that hold no cased letter in
reach: the text is lower-cased as if it stood alone. -/
theorem lowerFrom_between (b l x t : Str) (hl : casedNext l = false)
    (ht : casedNext t = false) :
    lowerFrom (b ++ l) (x ++ t) = lowerFrom b x ++ lowerFrom (x.reverse ++ (b ++ l)) t := by
  induction x generalizing b with
  | nil => rfl
  | cons c cs ih =>
    have h := ih (c :: b)
    rw [List.cons_append] at h
    rw [List.cons_append, lowerFrom_cons, lowerFrom_cons, casedNext_append b l hl,
      casedNext_append cs t ht, h, List.reverse_cons, List.append_assoc, List.append_assoc,
      List.singleton_append]

theorem lowerFrom_append (b x y : Str) :
    ∃ head, lowerFrom b (x ++ y) = head ++ lowerFrom (x.reverse ++ b) y := by
  induction x generalizing b with
  | nil => exact ⟨[], rfl⟩
  | cons c cs ih =>
    obtain ⟨head, h⟩ := ih (c :: b)
    refine ⟨(if c.toNat = 931 then
          (if casedNext b && !casedNext (cs ++ y) then [Char.ofNat 962] else [Char.ofNat 963])
        else lowerChar c) ++ head, ?_⟩
    rw [List.cons_append, lowerFrom_cons, h, List.reverse_cons, List.append_assoc,
      List.append_assoc, List.singleton_append]

theorem lowerFrom_whiteSpace (b x y : Str) (hx : ∀ c ∈ x, isWhiteSpace c = true) :
    lowerFrom b (x ++ y) = x ++ lowerFrom (x.reverse ++ b) y := by
  induction x generalizing b with
  | nil => rfl
  | cons c cs ih =>
    obtain ⟨h1, h2, _⟩ := whiteSpace_facts c (hx c (List.mem_cons_self c cs))
    have h := ih (c :: b) fun z hz => hx z (List.mem_cons_of_mem c hz)
    rw [List.cons_append, lowerFrom_cons, if_neg h1, h2, h, List.reverse_cons,
      List.append_assoc, List.singleton_append, List.singleton_append, List.cons_append]

theorem toLowerCase_keeps_whiteSpace (lead core tail : Str)
    (hl : ∀ c ∈ lead, isWhiteSpace c = true) (ht : ∀ c ∈ tail, isWhiteSpace c = true) :
    toLowerCase (lead ++ core ++ tail) = lead ++ toLowerCase core ++ tail := by
  have hlr : casedNext lead.reverse = false :=
    casedNext_whiteSpace _ fun c hc => hl c (List.mem_reverse.1 hc)
  have htc : casedNext tail = false := casedNext_whiteSpace _ ht
  have h1 := lowerFrom_whiteSpace [] lead (core ++ tail) hl
  have h2 := lowerFrom_between [] lead.reverse core tail hlr htc
  have h3 := lowerFrom_whiteSpace (core.reverse ++ ([] ++ lead.reverse)) tail [] ht
  simp only [List.append_nil, List.nil_append] at h1 h2 h3
  unfold toLowerCase
  rw [List.append_assoc, h1, h2, h3]
  simp [lowerFrom]

theorem toLowerCase_infix (v text : Str) (h : dquote :: (v ++ [dquote]) <:+: text) :
    toLowerCase v <:+: toLowerCase text := by
  obtain ⟨a, b, hab⟩ := h
  have hq : ∀ rest : Str, casedNext (dquote :: rest) = false := by
    intro rest
    have h1 : isCaseIgnorable dquote = false := by decide!
    have h2 : isCased dquote = false := by decide!
    rw [casedNext_cons, h1, h2]
    rfl
  have htext : text = (a ++ [dquote]) ++ (v ++ (dquote :: b)) := by
    rw [← hab]
    simp
  obtain ⟨head, h1⟩ := lowerFrom_append [] (a ++ [dquote]) (v ++ (dquote :: b))
  have hrev : (a ++ [dquote]).reverse ++ [] = [] ++ (dquote :: a.reverse) := by simp
  have h2 := lowerFrom_between [] (dquote :: a.reverse) v (dquote :: b) (hq _) (hq _)
  unfold toLowerCase
  rw [htext, h1, hrev, h2]
  exact ⟨head, _, List.append_assoc _ _ _⟩

/-! ## Lemmas on the host functions -/

theorem includes_iff (text needle : Str) :
    includes text needle = true ↔ needle <:+: text := by
  induction text with
  | nil => simp [includes, List.isEmpty_iff]
  | cons c cs ih =>
    simp only [includes, Bool.or_eq_true, ih, List.isPrefixOf_iff_prefix]
    exact List.infix_cons_iff.symm

theorem dropWhile_all_iff (p : Char → Bool) (s : Str) :
    (∀ c ∈ s.dropWhile p, p c = true) ↔ ∀ c ∈ s, p c = true := by
  induction s with
  | nil => simp
  | cons a as ih =>
    by_cases ha : p a = true
    · simp [List.dropWhile_cons, ha, ih]
    · simp [List.dropWhile_cons, ha]

theorem trim_eq_nil_iff (s : Str) :
    trim s = [] ↔ ∀ c ∈ s, isWhiteSpace c = true := by
  unfold trim
  rw [List.reverse_eq_nil_iff, List.dropWhile_eq_nil_iff]
  simp only [List.mem_reverse]
  exact dropWhile_all_iff isWhiteSpace s

theorem filtered_of_blank (C : List Record) (q : Str)
    (hq : ∀ c ∈ q, isWhiteSpace c = true) : filtered C q = C := by
  have h : trim q = [] := (trim_eq_nil_iff q).2 hq
  simp [filtered, h]

theorem filtered_of_not_blank (C : List Record) (q : Str)
    (hq : ∃ c ∈ q, isWhiteSpace c = false) :
    filtered C q = C.filter fun r =>
      includes (toLowerCase (stringify (Json.obj r))) (toLowerCase q) := by
  have h : trim q ≠ [] := by
    intro h0
    obtain ⟨c, hc, hw⟩ := hq
    have := (trim_eq_nil_iff q).1 h0 c hc
    simp [hw] at this
  simp [filtered, List.isEmpty_iff, h]

theorem Number.equal_eq (x y : Number) (h : Number.equal x y = true) : x = y := by
  cases x <;> cases y <;> simp_all [Number.equal]

theorem strictEq_eq (a b : JsValue) (h : strictEq a b = true) : a = b := by
  cases a with
  | none => cases b with
    | none => rfl
    | some y => cases y <;> simp [strictEq] at h
  | some x =>
    cases b with
    | none => cases x <;> simp [strictEq] at h
    | some y =>
      cases x <;> cases y <;> simp_all [strictEq]
      exact Number.equal_eq _ _ h

theorem strictEq_of_eq (a b s : JsValue) (ha : strictEq a s = true) (hb : strictEq b s = true) :
    strictEq a b = true := by
  have h1 := strictEq_eq a s ha
  have h2 := strictEq_eq b s hb
  subst h1
  subst h2
  exact ha

theorem selected_of_none (F : List Record) (s : JsValue)
    (h : ∀ r ∈ F, strictEq (getProp r sessionIdKey) s = false) :
    selected F s = F.head? := by
  have hf : F.find? (fun item => strictEq (getProp item sessionIdKey) s) = none := by
    rw [List.find?_eq_none]
    intro r hr
    simp [h r hr]
  simp [selected, hf]

theorem selected_of_some (F : List Record) (s : JsValue)
    (h : ∃ r ∈ F, strictEq (getProp r sessionIdKey) s = true) :
    ∃ r, F.find? (fun item => strictEq (getProp item sessionIdKey) s) = some r
      ∧ selected F s = some r ∧ r ∈ F ∧ strictEq (getProp r sessionIdKey) s = true := by
  cases hf : F.find? (fun item => strictEq (getProp item sessionIdKey) s) with
  | none =>
    rw [List.find?_eq_none] at hf
    obtain ⟨r, hr, hs⟩ := h
    exact absurd hs (hf r hr)
  | some r =>
    refine ⟨r, rfl, ?_, List.mem_of_find?_eq_some hf, ?_⟩
    · simp [selected, hf]
    · simpa using List.find?_some hf

theorem eq_of_same_id (F : List Record) (s : JsValue) (r1 r2 : Record)
    (huniq : F.Pairwise fun x y =>
      strictEq (getProp x sessionIdKey) (getProp y sessionIdKey) = false)
    (h1 : r1 ∈ F) (h2 : r2 ∈ F)
    (hs1 : strictEq (getProp r1 sessionIdKey) s = true)
    (hs2 : strictEq (getProp r2 sessionIdKey) s = true) : r1 = r2 := by
  by_contra hne
  have hsym : Symmetric fun x y : Record =>
      strictEq (getProp x sessionIdKey) (getProp y sessionIdKey) = false := by
    intro x y hxy
    cases hyx : strictEq (getProp y sessionIdKey) (getProp x sessionIdKey) with
    | false => rfl
    | true =>
      have e := strictEq_eq _ _ hyx
      rw [e] at hxy hyx
      rw [hyx] at hxy
      exact absurd hxy (by simp)
  have := huniq.forall hsym h1 h2 hne
  rw [strictEq_of_eq _ _ s hs1 hs2] at this
  exact absurd this (by simp)

theorem selected_unique (F : List Record) (s : JsValue) (r : Record)
    (huniq : F.Pairwise fun x y =>
      strictEq (getProp x sessionIdKey) (getProp y sessionIdKey) = false)
    (hr : r ∈ F) (hs : strictEq (getProp r sessionIdKey) s = true) :
    F.find? (fun item => strictEq (getProp item sessionIdKey) s) = some r
      ∧ selected F s = some r := by
  obtain ⟨r1, hf, hsel, hmem, hs1⟩ := selected_of_some F s ⟨r, hr, hs⟩
  have heq : r1 = r := eq_of_same_id F s r1 r huniq hmem hr hs1 hs
  subst heq
  exact ⟨hf, hsel⟩

theorem filtered_sublist (C : List Record) (q : Str) : (filtered C q).Sublist C := by
  unfold filtered
  split
  · exact List.Sublist.refl C
  · exact List.filter_sublist C

theorem foldl_setQuery_selectedId (qs : List Str) (st : AppState) :
    ((qs.map Action.setQuery).foldl step st).selectedId = st.selectedId := by
  induction qs generalizing st with
  | nil => rfl
  | cons q qs ih =>
    rw [List.map_cons, List.foldl_cons, ih]
    rfl

theorem foldl_setQuery_query (qs : List Str) (q : Str) (st : AppState) :
    (((qs ++ [q]).map Action.setQuery).foldl step st).query = q := by
  rw [List.map_append, List.foldl_append]
  rfl

theorem render_selected (C : List Record) (st : AppState) :
    (render C st).selected = selected (filtered C st.query) st.selectedId := rfl

theorem load_of_error (msg : Str) (st : HookState) (outcome : FetchOutcome) (now : Nat)
    (err : Thrown) (h : tryBlock msg outcome = Except.error err) :
    load msg st outcome now
      = { records := st.records, status := "error".toList, error := messageOf err,
          lastUpdated := st.lastUpdated } := by
  simp [load, h]

theorem load_of_ok (msg : Str) (st : HookState) (outcome : FetchOutcome) (now : Nat)
    (items : List Json) (h : tryBlock msg outcome = Except.ok items) :
    load msg st outcome now
      = { records := items, status := "ready".toList, error := [],
          lastUpdated := some now } := by
  simp [load, h]

theorem plus_zero (acc : Nat) (h : acc ≤ 2 ^ 53) :
    plus (Total.number (Number.ofNat acc)) (Json.num (Number.finite 0))
      = some (Total.number (Number.ofNat acc)) := by
  have h0 := add_ofNat acc 0 (by simpa using h)
  rw [ofNat_zero] at h0
  simp only [plus, toPrimitive, h0, Nat.add_zero]

theorem plus_ofNat (acc n : Nat) (h : acc + n ≤ 2 ^ 53) :
    plus (Total.number (Number.ofNat acc)) (Json.num (Number.ofNat n))
      = some (Total.number (Number.ofNat (acc + n))) := by
  simp only [plus, toPrimitive, add_ofNat acc n h]

theorem truthy_ofNat (n : Nat) :
    truthy (some (Json.num (Number.ofNat n))) = decide (n ≠ 0) := by
  have hU : unitsPerOne ≠ 0 := Nat.pos_iff_ne_zero.1 unitsPerOne_pos
  show decide ((n : Int) * (unitsPerOne : Int) ≠ 0) = decide (n ≠ 0)
  congr 1
  simp [hU]

theorem foldl_addOperand (C : List Record) (acc : Nat) (h : ∀ r ∈ C, WellTyped r)
    (hb : acc + (C.map messageCount).sum ≤ 2 ^ 53) :
    C.foldl (fun sum item =>
        addOperand sum (orZero (getProp item totalMessagesExchangedKey)))
        (some (Total.number (Number.ofNat acc)))
      = some (Total.number (Number.ofNat (acc + (C.map messageCount).sum))) := by
  induction C generalizing acc with
  | nil => simp
  | cons r rest ih =>
    have hr := (h r (List.mem_cons_self r rest)).2
    have hrest : ∀ x ∈ rest, WellTyped x := fun x hx => h x (List.mem_cons_of_mem r hx)
    rw [List.map_cons, List.sum_cons, ← Nat.add_assoc] at hb
    have hacc : acc + messageCount r ≤ 2 ^ 53 := le_trans (Nat.le_add_right _ _) hb
    have hstep : addOperand (some (Total.number (Number.ofNat acc)))
        (orZero (getProp r totalMessagesExchangedKey))
        = some (Total.number (Number.ofNat (acc + messageCount r))) := by
      rcases hr with h0 | h0 | ⟨n, h0⟩
      · have hm : messageCount r = 0 := by simp [messageCount, h0]
        rw [hm] at hacc ⊢
        rw [h0]
        exact plus_zero acc hacc
      · have hm : messageCount r = 0 := by simp [messageCount, h0]
        rw [hm] at hacc ⊢
        rw [h0]
        exact plus_zero acc hacc
      · have hm := messageCount_ofNat r n h0
        rw [hm] at hacc ⊢
        rw [h0]
        by_cases hn : n = 0
        · subst hn
          have : orZero (some (Json.num (Number.ofNat 0))) = Json.num (Number.finite 0) := by
            simp [orZero, truthy_ofNat]
          rw [this]
          exact plus_zero acc hacc
        · have : orZero (some (Json.num (Number.ofNat n))) = Json.num (Number.ofNat n) := by
            simp [orZero, truthy_ofNat, hn]
          rw [this]
          exact plus_ofNat acc n hacc
    rw [List.foldl_cons, hstep, ih _ hrest hb, List.map_cons, List.sum_cons, Nat.add_assoc]

theorem truthy_scam (r : Record) (h : WellTyped r) :
    truthy (getProp r scamDetectedKey) = scamFlag r := by
  rcases h.1 with h0 | h0 | ⟨b, h0⟩
  · simp [scamFlag, h0, truthy]
  · simp [scamFlag, h0, truthy]
  · cases b <;> simp [scamFlag, h0, truthy]

theorem quoteChar_plain (c : Char) (h : needsEscape c = false) : quoteChar c = [c] := by
  simp only [needsEscape, Bool.or_eq_false_iff, decide_eq_false_iff_not] at h
  obtain ⟨⟨h1, h2⟩, h3⟩ := h
  unfold quoteChar
  split_ifs <;> first | rfl | omega

theorem quoteBody_plain (v : Str) (h : ∀ c ∈ v, needsEscape c = false) : quoteBody v = v := by
  induction v with
  | nil => rfl
  | cons c cs ih =>
    rw [quoteBody, quoteChar_plain c (h c (List.mem_cons_self c cs)),
      ih fun x hx => h x (List.mem_cons_of_mem c hx)]
    rfl

theorem plain_infix_quote (v : Str) (h : ∀ c ∈ v, needsEscape c = false) :
    v <:+: quoteJSONString v := by
  unfold quoteJSONString
  rw [quoteBody_plain v h]
  exact ⟨[dquote], [dquote], rfl⟩

mutual
theorem quote_infix_stringify (v : Str) :
    ∀ j : Json, v ∈ strings j → quoteJSONString v <:+: stringify j
  | .null, h => by simp [strings] at h
  | .bool _, h => by simp [strings] at h
  | .num _, h => by simp [strings] at h
  | .str s, h => by
    simp only [strings, List.mem_singleton] at h
    subst h
    rw [stringify]
  | .arr [], h => by simp [strings] at h
  | .arr (x :: xs), h => by
    rw [strings, List.mem_append] at h
    rw [stringify]
    rcases h with h | h
    · exact List.infix_cons
        ((quote_infix_stringify v x h).trans (List.prefix_append _ _).isInfix)
    · exact List.infix_cons
        ((quote_infix_items v xs h).trans (List.suffix_append _ _).isInfix)
  | .obj [], h => by simp [strings] at h
  | .obj ((k, w) :: ms), h => by
    rw [strings, List.mem_append] at h
    rw [stringify]
    apply List.infix_cons
    refine List.IsInfix.trans ?_ (List.suffix_append _ _).isInfix
    apply List.infix_cons
    rcases h with h | h
    · exact (quote_infix_stringify v w h).trans (List.prefix_append _ _).isInfix
    · exact (quote_infix_members v ms h).trans (List.suffix_append _ _).isInfix
theorem quote_infix_items (v : Str) :
    ∀ xs : List Json, v ∈ stringsOfItems xs → quoteJSONString v <:+: stringifyItems xs
  | [], h => by simp [stringsOfItems] at h
  | x :: xs, h => by
    rw [stringsOfItems, List.mem_append] at h
    rw [stringifyItems]
    apply List.infix_cons
    rcases h with h | h
    · exact (quote_infix_stringify v x h).trans (List.prefix_append _ _).isInfix
    · exact (quote_infix_items v xs h).trans (List.suffix_append _ _).isInfix
theorem quote_infix_members (v : Str) :
    ∀ ms : List (Str × Json), v ∈ stringsOfMembers ms →
      quoteJSONString v <:+: stringifyMembers ms
  | [], h => by simp [stringsOfMembers] at h
  | (k, w) :: ms, h => by
    rw [stringsOfMembers, List.mem_append] at h
    rw [stringifyMembers]
    apply List.infix_cons
    refine List.IsInfix.trans ?_ (List.suffix_append _ _).isInfix
    apply List.infix_cons
    rcases h with h | h
    · exact (quote_infix_stringify v w h).trans (List.prefix_append _ _).isInfix
    · exact (quote_infix_members v ms h).trans (List.suffix_append _ _).isInfix
end

theorem strings_obj (ms : List (Str × Json)) : strings (Json.obj ms) = stringsOfMembers ms := by
  cases ms with
  | nil => simp [strings, stringsOfMembers]
  | cons m ms =>
    obtain ⟨k, w⟩ := m
    rw [strings, stringsOfMembers]

theorem strings_arr (xs : List Json) : strings (Json.arr xs) = stringsOfItems xs := by
  cases xs with
  | nil => simp [strings, stringsOfItems]
  | cons x xs => rw [strings, stringsOfItems]

theorem strings_of_getProp (ms : List (Str × Json)) (key : Str) (j : Json)
    (h : getProp ms key = some j) (v : Str) (hv : v ∈ strings j) :
    v ∈ stringsOfMembers ms := by
  induction ms with
  | nil => simp [getProp] at h
  | cons m ms ih =>
    obtain ⟨k, w⟩ := m
    rw [stringsOfMembers, List.mem_append]
    by_cases hk : (k == key) = true
    · have : getProp ((k, w) :: ms) key = some w := by simp [getProp, List.find?_cons, hk]
      rw [this] at h
      cases h
      exact Or.inl hv
    · have : getProp ((k, w) :: ms) key = getProp ms key := by
        simp [getProp, List.find?_cons, hk]
      rw [this] at h
      exact Or.inr (ih h)

theorem stringItems_subset (xs : List Json) (v : Str) (hv : v ∈ stringItems xs) :
    v ∈ stringsOfItems xs := by
  induction xs with
  | nil => simp [stringItems] at hv
  | cons x xs ih =>
    rw [stringsOfItems, List.mem_append]
    cases x with
    | str s =>
      rw [stringItems, List.mem_cons] at hv
      rcases hv with hv | hv
      · exact Or.inl (by simp [strings, hv])
      · exact Or.inr (ih hv)
    | null => exact Or.inr (ih (by simpa [stringItems] using hv))
    | bool _ => exact Or.inr (ih (by simpa [stringItems] using hv))
    | num _ => exact Or.inr (ih (by simpa [stringItems] using hv))
    | arr _ => exact Or.inr (ih (by simpa [stringItems] using hv))
    | obj _ => exact Or.inr (ih (by simpa [stringItems] using hv))

theorem textsOf_subset (xs : List Json) (v : Str) (hv : v ∈ textsOf xs) :
    v ∈ stringsOfItems xs := by
  induction xs with
  | nil => simp [textsOf] at hv
  | cons x xs ih =>
    rw [stringsOfItems, List.mem_append]
    cases x with
    | obj message =>
      rw [textsOf] at hv
      cases ht : getProp message textKey with
      | none =>
        rw [ht] at hv
        exact Or.inr (ih hv)
      | some t =>
        rw [ht] at hv
        cases t with
        | str t =>
          simp only [List.mem_cons] at hv
          rcases hv with hv | hv
          · left
            rw [strings_obj]
            exact strings_of_getProp message textKey (Json.str t) ht v (by simp [strings, hv])
          · exact Or.inr (ih hv)
        | null => exact Or.inr (ih hv)
        | bool _ => exact Or.inr (ih hv)
        | num _ => exact Or.inr (ih hv)
        | arr _ => exact Or.inr (ih hv)
        | obj _ => exact Or.inr (ih hv)
    | null => exact Or.inr (ih (by simpa [textsOf] using hv))
    | bool _ => exact Or.inr (ih (by simpa [textsOf] using hv))
    | num _ => exact Or.inr (ih (by simpa [textsOf] using hv))
    | arr _ => exact Or.inr (ih (by simpa [textsOf] using hv))
    | str _ => exact Or.inr (ih (by simpa [textsOf] using hv))

theorem shown_value_in_strings (r : Record) (v : Str)
    (hv : (∃ key, v ∈ intelligenceItems r key) ∨ v ∈ messageTexts r) :
    v ∈ strings (Json.obj r) := by
  rw [strings_obj]
  rcases hv with ⟨key, hv⟩ | hv
  · unfold intelligenceItems at hv
    split at hv
    · next members hm =>
      split at hv
      · next items hi =>
        refine strings_of_getProp r extractedIntelligenceKey (Json.obj members) hm v ?_
        rw [strings_obj]
        refine strings_of_getProp members key (Json.arr items) hi v ?_
        rw [strings_arr]
        exact stringItems_subset items v hv
      · simp at hv
    · simp at hv
  · unfold messageTexts at hv
    split at hv
    · next messages hm =>
      refine strings_of_getProp r rawMessagesKey (Json.arr messages) hm v ?_
      rw [strings_arr]
      exact textsOf_subset messages v hv
    · simp at hv

/-- Every value the detail pane shows that holds no character written as an
escape sequence is found by the search. -/
theorem search_finds_plain_value (C : List Record) (r : Record) (v : Str) (hr : r ∈ C)
    (hv : (∃ key, v ∈ intelligenceItems r key) ∨ v ∈ messageTexts r)
    (hplain : ∀ c ∈ v, needsEscape c = false) : r ∈ filtered C v := by
  unfold filtered
  split
  · exact hr
  · rw [List.mem_filter]
    refine ⟨hr, ?_⟩
    show includes (toLowerCase (stringify (Json.obj r))) (toLowerCase v) = true
    rw [includes_iff]
    apply toLowerCase_infix
    have hq := quote_infix_stringify v (Json.obj r) (shown_value_in_strings r v hv)
    unfold quoteJSONString at hq
    rwa [quoteBody_plain v hplain] at hq

/-- A response that is ok with a body that parses to a value other than `null`
is a success for `load`, also when the value holds no array under `records`:
the collection becomes the array, or the empty array. -/
theorem load_of_parsed (msg : Str) (st : HookState) (status now : Nat) (payload : Json)
    (h : payload ≠ Json.null) :
    (load msg st (FetchOutcome.response true status (Except.ok payload)) now).status
        = "ready".toList
      ∧ ∃ value, payloadRecords msg payload = Except.ok value
        ∧ (load msg st (FetchOutcome.response true status (Except.ok payload)) now).records
            = itemsOf value := by
  cases payload with
  | null => exact absurd rfl h
  | bool b => exact ⟨rfl, none, rfl, rfl⟩
  | num n => exact ⟨rfl, none, rfl, rfl⟩
  | str t => exact ⟨rfl, none, rfl, rfl⟩
  | arr xs => exact ⟨rfl, none, rfl, rfl⟩
  | obj ms => exact ⟨rfl, getProp ms recordsKey, rfl, rfl⟩

theorem filtered_nil (q : Str) : filtered [] q = [] := by
  unfold filtered
  split <;> rfl

theorem filtered_cons_of_includes (r : Record) (C : List Record) (q : Str)
    (hq : ∃ c ∈ q, isWhiteSpace c = false)
    (h : includes (toLowerCase (stringify (Json.obj r))) (toLowerCase q) = true) :
    filtered (r :: C) q = r :: filtered C q := by
  rw [filtered_of_not_blank _ _ hq, filtered_of_not_blank _ _ hq]
  exact List.filter_cons_of_pos h

theorem filtered_cons_of_not_includes (r : Record) (C : List Record) (q : Str)
    (hq : ∃ c ∈ q, isWhiteSpace c = false)
    (h : includes (toLowerCase (stringify (Json.obj r))) (toLowerCase q) = false) :
    filtered (r :: C) q = filtered C q := by
  rw [filtered_of_not_blank _ _ hq, filtered_of_not_blank _ _ hq]
  exact List.filter_cons_of_neg (by simp [h])

/-! ## The filter -/

/-- C1: for a query that is not blank, the filtered list is exactly the records
of the collection, in their original order, whose lower-cased serialization
contains the lower-cased query as a substring: it is a sublist of the
collection, every record in it matches, and every matching record of the
collection is in it. The lower-cased serialization is the one of the host:
on `recordMixed` it lowers the letters outside ASCII, writes `10^21` as
`1e+21`, keeps the fraction of the timestamp and escapes the quotation marks
and the line feed. -/
theorem filtered_exact (C : List Record) (q : Str)
    (hq : ∃ c ∈ q, isWhiteSpace c = false) :
    filtered C q
        = C.filter (fun r => decide (toLowerCase q <:+: toLowerCase (stringify (Json.obj r))))
      ∧ (filtered C q).Sublist C
      ∧ (∀ r, r ∈ filtered C q ↔
          r ∈ C ∧ toLowerCase q <:+: toLowerCase (stringify (Json.obj r)))
      ∧ toLowerCase (stringify (Json.obj recordMixed)) = "\x7b\"sessionid\":\"s-é1\",\"totalmessagesexchanged\":1e+21,\"rawmessages\":[\x7b\"timestamp\":1700000000.5,\"text\":\"café \\\"οδος\\\"\\n\"\x7d]\x7d".toList := by
  have h := filtered_of_not_blank C q hq
  refine ⟨?_, ?_, ?_, by decide!⟩
  · rw [h]
    apply List.filter_congr
    intro r _
    rw [Bool.eq_iff_iff]
    simp [includes_iff]
  · rw [h]
    exact List.filter_sublist C
  · intro r
    rw [h, List.mem_filter, includes_iff]

theorem filtered_exact_witness :
    recordMixed ∈ filtered [recordA, recordMixed] ".5,\"TEXT\":\"CAFÉ \\\"ΟΔΟΣ\\\"\\N".toList
      ∧ recordA ∉ filtered [recordA, recordMixed] ".5,\"TEXT\":\"CAFÉ \\\"ΟΔΟΣ\\\"\\N".toList
      ∧ (filtered [recordA, recordMixed] ".5,\"TEXT\":\"CAFÉ \\\"ΟΔΟΣ\\\"\\N".toList).Sublist [recordA, recordMixed] := by
  have h := filtered_exact [recordA, recordMixed] ".5,\"TEXT\":\"CAFÉ \\\"ΟΔΟΣ\\\"\\N".toList ⟨'.', by decide, by decide⟩
  refine ⟨?_, ?_, h.2.1⟩
  · refine (h.2.2.1 recordMixed).2 ⟨by simp, ?_⟩
    rw [← includes_iff]
    decide!
  · intro hA
    have := ((h.2.2.1 recordA).1 hA).2
    rw [← includes_iff] at this
    exact absurd this (by decide!)

/-- C2: for a query that is empty or made of white space only, the filtered
list is the collection itself, same records in the same order. -/
theorem filtered_blank (C : List Record) (q : Str)
    (hq : ∀ c ∈ q, isWhiteSpace c = true) : filtered C q = C :=
  filtered_of_blank C q hq

theorem filtered_blank_witness :
    filtered [recordA, recordB] " \t\n".toList = [recordA, recordB] :=
  filtered_blank [recordA, recordB] " \t\n".toList (by decide)

/-- C8: the filter is idempotent: filtering the filtered list again with the
same query changes nothing. -/
theorem filtered_idempotent (C : List Record) (q : Str) :
    filtered (filtered C q) q = filtered C q := by
  unfold filtered
  split
  · rfl
  · rw [List.filter_filter]
    simp

/-! ## The selection -/

/-- C3: selection stability. When some record of the filtered list has a
`sessionId` strictly equal to the stored id, the resolved selection is a
record of the list with that `sessionId`; when the ids of the list are
pairwise distinct, it is exactly that record, returned by `find` itself, so
the first record is the answer only when it is that record. -/
theorem selected_stable (F : List Record) (s : JsValue)
    (h : ∃ r ∈ F, strictEq (getProp r sessionIdKey) s = true) :
    (∃ r, selected F s = some r ∧ r ∈ F ∧ strictEq (getProp r sessionIdKey) s = true)
      ∧ (F.Pairwise (fun x y =>
            strictEq (getProp x sessionIdKey) (getProp y sessionIdKey) = false) →
          ∀ r ∈ F, strictEq (getProp r sessionIdKey) s = true →
            selected F s = some r
              ∧ F.find? (fun item => strictEq (getProp item sessionIdKey) s) = some r
              ∧ (selected F s = F.head? → F.head? = some r)) := by
  refine ⟨?_, ?_⟩
  · obtain ⟨r, _, hsel, hmem, hs⟩ := selected_of_some F s h
    exact ⟨r, hsel, hmem, hs⟩
  · intro huniq r hr hs
    obtain ⟨hf, hsel⟩ := selected_unique F s r huniq hr hs
    exact ⟨hsel, hf, fun e => by rw [← e, hsel]⟩

theorem selected_stable_witness :
    selected [recordA, recordB] (some (Json.str "b".toList)) = some recordB :=
  ((selected_stable [recordA, recordB] (some (Json.str "b".toList))
      ⟨recordB, by simp, by rfl⟩).2
    (by
      refine List.Pairwise.cons ?_ (List.pairwise_singleton _ _)
      intro y hy
      rw [List.mem_singleton] at hy
      subst hy
      rfl)
    recordB (by simp) (by rfl)).1

/-- C4: selection fallback. When no record of the filtered list has a
`sessionId` strictly equal to the stored id (the initial `null` included), the
resolved selection is the first record of a non-empty list, and is undefined
for the empty list, for which the pane reads "No sessions to display.". -/
theorem selected_fallback (F : List Record) (s : JsValue)
    (h : ∀ r ∈ F, strictEq (getProp r sessionIdKey) s = false) :
    selected F s = F.head?
      ∧ (∀ r rest, F = r :: rest → selected F s = some r)
      ∧ (F = [] → selected F s = none
          ∧ detailPane (selected F s) = Pane.empty "No sessions to display.".toList) := by
  have hsel := selected_of_none F s h
  refine ⟨hsel, ?_, ?_⟩
  · intro r rest hF
    rw [hsel, hF]
    rfl
  · intro hF
    rw [hsel, hF]
    exact ⟨rfl, rfl⟩

theorem selected_fallback_witness :
    selected [recordA, recordB] AppState.initial.selectedId = some recordA
      ∧ selected [] AppState.initial.selectedId = none := by
  refine ⟨?_, ?_⟩
  · exact (selected_fallback [recordA, recordB] AppState.initial.selectedId (by
      intro r hr
      simp only [List.mem_cons, List.mem_singleton, List.not_mem_nil, or_false] at hr
      rcases hr with e | e <;> subst e <;> rfl)).2.1 recordA [recordB] rfl
  · exact ((selected_fallback [] AppState.initial.selectedId (by simp)).2.2 rfl).1

theorem render_totalMessages (C : List Record) (st : AppState) :
    (render C st).totalMessages = totalMessages C := rfl

theorem render_totalScams (C : List Record) (st : AppState) :
    (render C st).totalScams = totalScams C := rfl

/-! ## The statistics -/

/-- C5 (as amended): the three statistics of a render. `totalSessions` is the
number of records. Over a collection typed as in the data model (each
`scamDetected` absent, `null` or a boolean, each `totalMessagesExchanged`
absent, `null` or a non-negative integer) whose counts add up to at most
`2^53`, `totalScams` is the number of records whose `scamDetected` is `true`
and `totalMessages` the sum of `totalMessagesExchanged`, a missing value
counted as `0`. The empty collection gives 0, 0, 0 and the example of two
records 2, 1, 8. The statistics are computed from the unfiltered collection:
they are the same for every query and every stored selection. -/
theorem statistics_typed (C : List Record) (st : AppState)
    (h : ∀ r ∈ C, WellTyped r) (hb : (C.map messageCount).sum ≤ 2 ^ 53) :
    (render C st).totalSessions = C.length
      ∧ (render C st).totalScams = C.countP scamFlag
      ∧ (render C st).totalMessages
          = some (Total.number (Number.ofNat (C.map messageCount).sum))
      ∧ (∀ st2 : AppState,
          (render C st2).totalSessions = (render C st).totalSessions
            ∧ (render C st2).totalScams = (render C st).totalScams
            ∧ (render C st2).totalMessages = (render C st).totalMessages)
      ∧ ((render [] st).totalSessions = 0 ∧ (render [] st).totalScams = 0
          ∧ (render [] st).totalMessages = some (Total.number (Number.ofNat 0)))
      ∧ ((render [countedA, countedB] st).totalSessions = 2
          ∧ (render [countedA, countedB] st).totalScams = 1
          ∧ (render [countedA, countedB] st).totalMessages
              = some (Total.number (Number.ofNat 8))) := by
  refine ⟨rfl, ?_, ?_, fun _ => ⟨rfl, rfl, rfl⟩, ⟨rfl, rfl, ?_⟩, ⟨rfl, rfl, ?_⟩⟩
  · show totalScams C = C.countP scamFlag
    unfold totalScams
    rw [List.countP_eq_length_filter]
    congr 1
    apply List.filter_congr
    intro r hr
    exact truthy_scam r (h r hr)
  · show totalMessages C = _
    unfold totalMessages
    rw [← ofNat_zero, foldl_addOperand C 0 h (by simpa using hb)]
    simp
  · rw [render_totalMessages]
    decide!
  · rw [render_totalMessages]
    decide!

theorem statistics_typed_witness :
    (render [recordA, recordB] AppState.initial).totalSessions = 2
      ∧ (render [recordA, recordB] AppState.initial).totalScams
          = [recordA, recordB].countP scamFlag
      ∧ (render [recordA, recordB] AppState.initial).totalMessages
          = some (Total.number (Number.ofNat ([recordA, recordB].map messageCount).sum))
      ∧ [recordA, recordB].countP scamFlag = 1
      ∧ ([recordA, recordB].map messageCount).sum = 8 := by
  have h := statistics_typed [recordA, recordB] AppState.initial (by
    intro r hr
    simp only [List.mem_cons, List.mem_singleton, List.not_mem_nil, or_false] at hr
    rcases hr with e | e <;> subst e
    · exact ⟨Or.inr (Or.inr ⟨true, rfl⟩), Or.inr (Or.inr ⟨5, rfl⟩)⟩
    · exact ⟨Or.inr (Or.inr ⟨false, rfl⟩), Or.inr (Or.inr ⟨3, rfl⟩)⟩) (by decide!)
  exact ⟨h.1, h.2.1, h.2.2.1, by decide!, by decide!⟩

/-- C5 as first stated fails on a collection outside these bounds. On
`[countedBig, countedOne]` the flag `"yes"` is counted as a scam although no
record has `scamDetected` equal to `true`, and the counts `2^53` and `1` add
up to `2^53` in the arithmetic of doubles, not to their sum `2^53 + 1`. -/
theorem statistics_counterexample :
    (render [countedBig, countedOne] AppState.initial).totalScams = 1
      ∧ [countedBig, countedOne].countP scamFlag = 0
      ∧ (render [countedBig, countedOne] AppState.initial).totalMessages
          = some (Total.number (Number.ofNat 9007199254740992))
      ∧ ([countedBig, countedOne].map messageCount).sum = 9007199254740993
      ∧ (render [countedBig, countedOne] AppState.initial).totalMessages
          ≠ some (Total.number
              (Number.ofNat ([countedBig, countedOne].map messageCount).sum)) := by
  refine ⟨?_, ?_, ?_, ?_, ?_⟩
  · rw [render_totalScams]
    decide!
  · decide!
  · rw [render_totalMessages]
    decide!
  · decide!
  · rw [render_totalMessages]
    decide!

/-! ## The stored selection across query changes -/

/-- C6: the stored id is changed by `select` only. After `select(b)` and any
sequence of query changes the stored id is still `b`; so, in a collection with
pairwise distinct ids, a query whose result leaves out the record of `b`
resolves to the first record of its result (none when it is empty), and a
later query whose result holds the record of `b` resolves to that record
again. -/
theorem selection_kept (C : List Record) (st : AppState) (b : JsValue)
    (qs1 qs2 : List Str) (q1 q2 : Str) (rb : Record)
    (huniq : C.Pairwise (fun x y =>
      strictEq (getProp x sessionIdKey) (getProp y sessionIdKey) = false))
    (hb : strictEq (getProp rb sessionIdKey) b = true)
    (hout : rb ∉ filtered C q1) (hin : rb ∈ filtered C q2) :
    (∀ (s : AppState) (text : Str),
        (step s (Action.setQuery text)).selectedId = s.selectedId)
      ∧ (((qs1 ++ [q1]).map Action.setQuery).foldl step
            (step st (Action.select b))).selectedId = b
      ∧ (((qs2 ++ [q2]).map Action.setQuery).foldl step
            (((qs1 ++ [q1]).map Action.setQuery).foldl step
              (step st (Action.select b)))).selectedId = b
      ∧ (render C (((qs1 ++ [q1]).map Action.setQuery).foldl step
            (step st (Action.select b)))).selected = (filtered C q1).head?
      ∧ (render C (((qs2 ++ [q2]).map Action.setQuery).foldl step
            (((qs1 ++ [q1]).map Action.setQuery).foldl step
              (step st (Action.select b))))).selected = some rb := by
  have hid1 : (((qs1 ++ [q1]).map Action.setQuery).foldl step
      (step st (Action.select b))).selectedId = b := by
    rw [foldl_setQuery_selectedId]
    rfl
  have hid2 : (((qs2 ++ [q2]).map Action.setQuery).foldl step
      (((qs1 ++ [q1]).map Action.setQuery).foldl step
        (step st (Action.select b)))).selectedId = b := by
    rw [foldl_setQuery_selectedId, hid1]
  have hrbC : rb ∈ C := (filtered_sublist C q2).subset hin
  refine ⟨fun _ _ => rfl, hid1, hid2, ?_, ?_⟩
  · rw [render_selected, hid1, foldl_setQuery_query]
    apply selected_of_none
    intro r hr
    cases hs : strictEq (getProp r sessionIdKey) b with
    | false => rfl
    | true =>
      have hrC : r ∈ C := (filtered_sublist C q1).subset hr
      have e : r = rb := eq_of_same_id C b r rb huniq hrC hrbC hs hb
      rw [e] at hr
      exact absurd hr hout
  · rw [render_selected, hid2, foldl_setQuery_query]
    exact (selected_unique (filtered C q2) b rb
      (huniq.sublist (filtered_sublist C q2)) hin hb).2

theorem selection_kept_witness :
    (render [recordA, recordB]
        ((([] ++ ["ID\":\"A".toList]).map Action.setQuery).foldl step
          (step AppState.initial (Action.select (some (Json.str "b".toList)))))).selected
        = some recordA
      ∧ (render [recordA, recordB]
        (((["x".toList] ++ ["session".toList]).map Action.setQuery).foldl step
          ((([] ++ ["ID\":\"A".toList]).map Action.setQuery).foldl step
            (step AppState.initial (Action.select (some (Json.str "b".toList))))))).selected
        = some recordB := by
  have h := selection_kept [recordA, recordB] AppState.initial (some (Json.str "b".toList))
    [] ["x".toList] "ID\":\"A".toList "session".toList recordB
    (by
      refine List.Pairwise.cons ?_ (List.pairwise_singleton _ _)
      intro y hy
      rw [List.mem_singleton] at hy
      subst hy
      rfl)
    rfl
    (by
      have e : filtered [recordA, recordB] "ID\":\"A".toList = [recordA] := by
        rw [filtered_cons_of_includes _ _ _ ⟨'I', by decide, by decide⟩ (by decide!),
          filtered_cons_of_not_includes _ _ _ ⟨'I', by decide, by decide⟩ (by decide!),
          filtered_nil]
      rw [e, List.mem_singleton]
      intro hAB
      have e2 : strictEq (getProp recordB sessionIdKey) (some (Json.str "b".toList))
          = strictEq (getProp recordA sessionIdKey) (some (Json.str "b".toList)) := by
        rw [hAB]
      exact absurd e2 (by decide))
    (by
      have e : filtered [recordA, recordB] "session".toList = [recordA, recordB] := by
        rw [filtered_cons_of_includes _ _ _ ⟨'s', by decide, by decide⟩ (by decide!),
          filtered_cons_of_includes _ _ _ ⟨'s', by decide, by decide⟩ (by decide!),
          filtered_nil]
      rw [e]
      simp)
  exact ⟨h.2.2.2.1, h.2.2.2.2⟩

/-! ## The load step -/

/-- C7 (as amended): a fetch on which the `try` block throws leaves the
collection untouched. Whenever the request rejects, the response is not ok,
`response.json()` rejects or the body is `null`, the state after `load` has
the records and the time of last update it had before, the status "error",
and as error the message of the failure: "API error" followed by the status
for a response that is not ok, the message of the thrown value when it has
one, "Failed to load data" when it has none or an empty one; for the body
`null` the thrown value is the `TypeError` of the engine. -/
theorem load_failure (msg : Str) (st : HookState) (outcome : FetchOutcome) (now : Nat)
    (hf : outcome.throws = true) :
    (load msg st outcome now).records = st.records
      ∧ (load msg st outcome now).lastUpdated = st.lastUpdated
      ∧ (load msg st outcome now).status = "error".toList
      ∧ (∀ status body, outcome = FetchOutcome.response false status body →
          (load msg st outcome now).error = "API error ".toList ++ Nat.toDigits 10 status)
      ∧ (∀ err, (outcome = FetchOutcome.rejected err
            ∨ (∃ status, outcome = FetchOutcome.response true status (Except.error err))
            ∨ (err = ⟨some msg⟩
              ∧ ∃ status, outcome = FetchOutcome.response true status (Except.ok Json.null))) →
          ((err.message = none ∨ err.message = some []) →
            (load msg st outcome now).error = "Failed to load data".toList)
          ∧ ∀ m, err.message = some m → m ≠ [] → (load msg st outcome now).error = m) := by
  have hmsg : ∀ err : Thrown,
      ((err.message = none ∨ err.message = some []) →
          messageOf err = "Failed to load data".toList)
        ∧ ∀ m, err.message = some m → m ≠ [] → messageOf err = m := by
    intro err
    refine ⟨?_, ?_⟩
    · rintro (h | h) <;> simp [messageOf, h]
    · intro m h hm
      simp [messageOf, h, List.isEmpty_iff, hm]
  have herr : ∃ err, tryBlock msg outcome = Except.error err := by
    cases outcome with
    | rejected err => exact ⟨err, rfl⟩
    | response ok status body =>
      cases ok with
      | false => exact ⟨_, rfl⟩
      | true =>
        cases body with
        | error err => exact ⟨err, rfl⟩
        | ok payload =>
          cases payload <;> first | exact ⟨_, rfl⟩ | simp [FetchOutcome.throws] at hf
  obtain ⟨err0, h0⟩ := herr
  have hl := load_of_error msg st outcome now err0 h0
  refine ⟨by rw [hl], by rw [hl], by rw [hl], ?_, ?_⟩
  · intro status body ho
    subst ho
    rfl
  · intro err ho
    have he : tryBlock msg outcome = Except.error err := by
      rcases ho with ho | ⟨status, ho⟩ | ⟨he, status, ho⟩
      · subst ho
        rfl
      · subst ho
        rfl
      · subst ho
        subst he
        rfl
    rw [load_of_error msg st outcome now err he]
    exact hmsg err

theorem load_failure_witness :
    (load sampleNullReadMessage loadedState
        (FetchOutcome.response false 500 (Except.ok (Json.obj []))) 2).records
        = [Json.obj recordA]
      ∧ (load sampleNullReadMessage loadedState
        (FetchOutcome.response false 500 (Except.ok (Json.obj []))) 2).error
        = "API error 500".toList := by
  have h := load_failure sampleNullReadMessage loadedState
    (FetchOutcome.response false 500 (Except.ok (Json.obj []))) 2 rfl
  exact ⟨h.1, h.2.2.2.1 500 _ rfl⟩

/-- C7 as first stated fails for a body that is read but is no object. The
response is ok and its body parses to the number `5`: `load` stores the empty
collection in place of the one held before, sets the time of last update and
ends with the status "ready" and no error. -/
theorem load_counterexample :
    isObject (Json.num (Number.ofNat 5)) = false
      ∧ loadedState.records = [Json.obj recordA]
      ∧ (load sampleNullReadMessage loadedState
          (FetchOutcome.response true 200 (Except.ok (Json.num (Number.ofNat 5)))) 2).records
          = []
      ∧ (load sampleNullReadMessage loadedState
          (FetchOutcome.response true 200 (Except.ok (Json.num (Number.ofNat 5)))) 2).records
          ≠ loadedState.records
      ∧ (load sampleNullReadMessage loadedState
          (FetchOutcome.response true 200 (Except.ok (Json.num (Number.ofNat 5)))) 2).lastUpdated
          = some 2
      ∧ (load sampleNullReadMessage loadedState
          (FetchOutcome.response true 200 (Except.ok (Json.num (Number.ofNat 5)))) 2).status
          = "ready".toList
      ∧ (load sampleNullReadMessage loadedState
          (FetchOutcome.response true 200 (Except.ok (Json.num (Number.ofNat 5)))) 2).status
          ≠ "error".toList := by
  refine ⟨rfl, rfl, rfl, ?_, rfl, rfl, by decide⟩
  intro h
  exact List.noConfusion h

/-! ## Searching by a shown value -/

/-- C9: searching by a value the detail pane shows finds its session. The
code misses it on `recordQuoted`: the text of its message is shown, is not
blank, and the filter by that text returns no record, because the
serialization holds the text with its quotation marks escaped. -/
theorem search_misses_quoted_text :
    recordQuoted ∈ [recordQuoted]
      ∧ "Send the \"OTP\" now".toList ∈ messageTexts recordQuoted
      ∧ (∃ c ∈ "Send the \"OTP\" now".toList, isWhiteSpace c = false)
      ∧ filtered [recordQuoted] "Send the \"OTP\" now".toList = [] := by
  refine ⟨List.mem_singleton.2 rfl, ?_, ⟨'S', by decide, by decide⟩, ?_⟩
  · have e : messageTexts recordQuoted = ["Send the \"OTP\" now".toList] := rfl
    rw [e]
    exact List.mem_singleton.2 rfl
  · rw [filtered_cons_of_not_includes _ _ _ ⟨'S', by decide, by decide⟩ (by decide!),
      filtered_nil]

/-- C10: the query is trimmed to decide whether it is blank and not for
matching. For a query that is not blank the records kept are those whose
lower-cased serialization contains the whole lower-cased query, and
lower-casing keeps the white space around it; so on `recordAbc` the query
`abc` followed by a space finds nothing while its trimmed form finds the
record. -/
theorem needle_keeps_white_space :
    (∀ (C : List Record) (q : Str), (∃ c ∈ q, isWhiteSpace c = false) →
        ∀ r, r ∈ filtered C q ↔
          r ∈ C ∧ toLowerCase q <:+: toLowerCase (stringify (Json.obj r)))
      ∧ (∀ lead core tail : Str, (∀ c ∈ lead, isWhiteSpace c = true) →
          (∀ c ∈ tail, isWhiteSpace c = true) →
          toLowerCase (lead ++ core ++ tail) = lead ++ toLowerCase core ++ tail)
      ∧ trim "abc ".toList = "abc".toList
      ∧ filtered [recordAbc] (trim "abc ".toList) = [recordAbc]
      ∧ filtered [recordAbc] "abc ".toList = []
      ∧ "abc".toList <:+: toLowerCase (stringify (Json.obj recordAbc))
      ∧ ¬ "abc ".toList <:+: toLowerCase (stringify (Json.obj recordAbc)) := by
  have ht : trim "abc ".toList = "abc".toList := by decide
  refine ⟨?_, ?_, ht, ?_, ?_, ?_, ?_⟩
  · intro C q hq r
    rw [filtered_of_not_blank C q hq, List.mem_filter, includes_iff]
  · exact toLowerCase_keeps_whiteSpace
  · rw [ht, filtered_cons_of_includes _ _ _ ⟨'a', by decide, by decide⟩ (by decide!),
      filtered_nil]
  · rw [filtered_cons_of_not_includes _ _ _ ⟨'a', by decide, by decide⟩ (by decide!),
      filtered_nil]
  · rw [← includes_iff]
    decide!
  · rw [← includes_iff]
    decide!

end Dashboard
